import Mathlib

/-!
# SSH Mounter: the mount-lifecycle orchestrator

A shallow embedding of `src/src/ssh_mounter.cpp` / `ssh_mounter.hpp` (class `SSHMounter`),
of the host record of `src/src/ssh_store.hpp` (struct `SSHHost`) and of its conversion to
and from JSON in `src/src/ssh_store.cpp`.

Modelling decisions, all taken from the source and from the documented contract of the
toolkit calls the source makes:

* `QString` is a Lean `String`; scanning works on its list of characters.
* `int` fields (`port`, exit codes) are `Int`; no arithmetic is performed on them.
* The object is a record `SSHMounter` holding the three members `process_`, `state_`,
  `currentHost_`.  The pointer `process_` and the `QProcess` it points to are kept together:
  `none` is `nullptr`, `some p` is a pointer to the object `p`, and `p.deleted = true` means
  the object has been destroyed while the pointer still holds its address.
* Every externally visible action (an emitted signal, creating / starting / destroying a
  process, writing to it, asking it to terminate) is appended to `trace`, oldest first.
* Dereferencing `nullptr` or a destroyed object, and destroying an object twice, is undefined
  behaviour in C++; the operations return `Except.error` there.
* `console.log` prints to standard output only and is left out.
* Slots connected to the signals (the window) are not part of the orchestrator: `emit`
  records the signal and returns.  While the event loop of `mount` runs, only the ready-read
  notifications of the helper are served.  Of the slots that call back into the
  orchestrator while it is at work, `MainWindow::onPasswordRequired` is taken into account
  by the `...WithSlot` variants of the operations.
* A `QProcess` follows its documented contract: a new object reports exit code 0, exit
  status `NormalExit` and error `UnknownError`; with `MergedChannels` its standard error
  channel receives no data; a closed input channel accepts no data.  When the program could
  not be started, the object reports `FailedToStart` and the exit code of the child process
  that could not execute the program (255), not the exit code 0.  What the toolkit does
  inside the destructor of a running process is not modelled beyond the destruction itself.
-/

namespace SSHMounterModel

/-! ## Text helpers (`QString`) -/

namespace QString

/-- Models `QString::isEmpty()`. -/
def isEmpty (s : String) : Bool := s.data.isEmpty

/-- Models `QString::contains(needle)` with the default `Qt::CaseSensitive`, on character lists:
`needle` occurs as a contiguous block of `hay`. -/
def containsChars (needle : List Char) : List Char → Bool
  | [] => needle.isEmpty
  | c :: hay => needle.isPrefixOf (c :: hay) || containsChars needle hay

/-- Models `QString::contains(needle)`, case sensitive. -/
def contains (hay needle : String) : Bool := containsChars needle.data hay.data

/-- Case folding as used by `Qt::CaseInsensitive` comparison.  The toolkit folds every
character with the Unicode simple case folding; the only characters that fold to an ASCII
letter are the ASCII letters themselves, U+017F (long s, folds to `s`) and U+212A (Kelvin
sign, folds to `k`).  All needles used by the program are ASCII, so folding of other
characters is irrelevant and they are left as they are. -/
def foldCase (c : Char) : Char :=
  if c.val = 0x17F then 's'
  else if c.val = 0x212A then 'k'
  else c.toLower

/-- Models `QString::contains(needle, Qt::CaseInsensitive)`. -/
def containsCI (hay needle : String) : Bool :=
  containsChars (needle.data.map foldCase) (hay.data.map foldCase)

/-- Decimal digits of a natural number, most significant first (fuel bounds the recursion;
`n + 1` digits always suffice). -/
def natDigits : Nat → Nat → List Char
  | 0, _ => []
  | fuel + 1, n =>
    if n < 10 then [Char.ofNat (48 + n)]
    else natDigits fuel (n / 10) ++ [Char.ofNat (48 + n % 10)]

/-- Models `QString::number(int)`: decimal text, with a leading `-` for negative values. -/
def number (n : Int) : String :=
  match n with
  | Int.ofNat m => ⟨natDigits (m + 1) m⟩
  | Int.negSucc m => ⟨'-' :: natDigits (m + 2) (m + 1)⟩

/-- Models `QString::toUtf8()`: the UTF-8 encoding of the text, byte by byte. -/
def toUtf8 (s : String) : List UInt8 := s.data.flatMap String.utf8EncodeChar

/-! ### `QString::arg`

`QString::arg(const QString &a)` looks for place markers in the receiver: a `%`, an optional
`L`, then one or two decimal digits.  It replaces every occurrence of the marker with the
LOWEST number by `a` and leaves all other text, other markers included, as it is; a receiver
without any marker is returned unchanged.  A chain `.arg(x).arg(y)` therefore scans the text
already substituted for `x` again. -/

/-- Value of an ASCII decimal digit. -/
def digitValue (c : Char) : Option Nat :=
  if 48 ≤ c.toNat ∧ c.toNat ≤ 57 then some (c.toNat - 48) else none

/-- Reads the one or two digits of a place marker: the marker number and how many
characters were read. -/
def escapeDigits : List Char → Option (Nat × Nat)
  | [] => none
  | [d] => (digitValue d).map fun a => (a, 1)
  | d :: e :: _ =>
    match digitValue d, digitValue e with
    | some a, some b => some (10 * a + b, 2)
    | some a, none => some (a, 1)
    | none, _ => none

/-- Reads a place marker from the text that follows a `%`: the marker number and the
number of characters after the `%` that belong to the marker. -/
def escapeAfter : List Char → Option (Nat × Nat)
  | 'L' :: rest => (escapeDigits rest).map fun r => (r.1, r.2 + 1)
  | rest => escapeDigits rest

/-- The numbers of all place markers of a text, in order of appearance. -/
def argEscapes : List Char → List Nat
  | [] => []
  | c :: rest =>
    if c = '%' then
      match escapeAfter rest with
      | some (e, _) => e :: argEscapes rest
      | none => argEscapes rest
    else argEscapes rest

/-- The lowest marker number, when there is a marker. -/
def minEscape : List Nat → Option Nat
  | [] => none
  | e :: es =>
    match minEscape es with
    | none => some e
    | some m => some (min e m)

/-- Replaces every marker numbered `n` by `a`.  The counter tells how many characters of
a marker that was just replaced remain to be skipped. -/
def replaceArgEscapes (n : Nat) (a : List Char) : Nat → List Char → List Char
  | _, [] => []
  | skip + 1, _ :: rest => replaceArgEscapes n a skip rest
  | 0, c :: rest =>
    if c = '%' then
      match escapeAfter rest with
      | some (e, len) =>
        if e = n then a ++ replaceArgEscapes n a len rest
        else c :: replaceArgEscapes n a 0 rest
      | none => c :: replaceArgEscapes n a 0 rest
    else c :: replaceArgEscapes n a 0 rest

/-- Models `QString::arg(const QString &a)`. -/
def arg (s a : String) : String :=
  match minEscape (argEscapes s.data) with
  | none => s
  | some n => ⟨replaceArgEscapes n a.data 0 s.data⟩

end QString

/-! ## Data model -/

/-- The `MountState` enum of `ssh_mounter.hpp`. -/
inductive MountState where
  | Idle
  | Mounting
  | Mounted
  | Unmounting
  | Error
  deriving DecidableEq, Repr

/-- The `SSHHost` record of `ssh_store.hpp` (`port` defaults to 22, `usePublicKey` to
false). -/
structure SSHHost where
  name : String := ""
  user : String := ""
  host : String := ""
  remotePath : String := ""
  localPath : String := ""
  port : Int := 22
  usePublicKey : Bool := false
  deriving DecidableEq, Repr

/-- The signals of `SSHMounter`. -/
inductive Signal where
  | stateChanged (state : MountState)
  | mountSuccess
  | mountError (error : String)
  | unmountSuccess
  | passwordRequired
  | progressMessage (msg : String)
  | hostKeyMismatch
  deriving DecidableEq, Repr

/-- Models `QProcess::ExitStatus`. -/
inductive ExitStatus where
  | NormalExit
  | CrashExit
  deriving DecidableEq, Repr

/-- Models `QProcess::ProcessError`. -/
inductive ProcessError where
  | FailedToStart
  | Crashed
  | Timedout
  | ReadError
  | WriteError
  | UnknownError
  deriving DecidableEq, Repr

/-- Models `QProcess::ProcessState`. -/
inductive ProcessState where
  | NotRunning
  | Starting
  | Running
  deriving DecidableEq, Repr

/-- Models `QProcess::ProcessChannelMode`, the two modes the program uses: the default and the one
set by `mount`. -/
inductive ProcessChannelMode where
  | SeparateChannels
  | MergedChannels
  deriving DecidableEq, Repr

/-- A `QProcess` object as the orchestrator sees it.  A new object has the values below;
`exitCode`, `exitStatus` and `error` keep them until a process run sets them. -/
structure QProcess where
  /-- Identity of the object (its allocation number). -/
  id : Nat
  /-- Whether the object was destroyed with `delete`. -/
  deleted : Bool := false
  channelMode : ProcessChannelMode := .SeparateChannels
  program : String := ""
  arguments : List String := []
  state : ProcessState := .NotRunning
  exitCode : Int := 0
  exitStatus : ExitStatus := .NormalExit
  error : ProcessError := .UnknownError
  /-- Unread data of the standard output channel. -/
  stdoutBuf : String := ""
  /-- Unread data of the standard error channel. -/
  stderrBuf : String := ""
  /-- All bytes accepted by the input channel so far. -/
  stdinData : List UInt8 := []
  /-- Whether `closeWriteChannel()` was called. -/
  writeChannelClosed : Bool := false
  /-- Whether `terminate()` was called. -/
  terminateRequested : Bool := false
  deriving DecidableEq, Repr

/-- What the orchestrator does to the outside, in the order it does it. -/
inductive Effect where
  /-- Models `emit signal`. -/
  | emit (signal : Signal)
  /-- Models `new QProcess(this)`. -/
  | create (id : Nat)
  /-- Models `delete` of a process object. -/
  | destroy (id : Nat)
  /-- Models `QProcess::start(program, arguments)`. -/
  | start (id : Nat) (program : String) (arguments : List String)
  /-- Models `QProcess::write(bytes)`. -/
  | write (id : Nat) (bytes : List UInt8)
  /-- Models `QProcess::closeWriteChannel()`. -/
  | closeWriteChannel (id : Nat)
  /-- Models `QProcess::terminate()`. -/
  | terminate (id : Nat)
  deriving DecidableEq, Repr

/-- Undefined behaviour of the C++ program. -/
inductive Fault where
  | nullDereference
  | useAfterDelete
  | doubleDelete
  deriving DecidableEq, Repr

/-- The `SSHMounter` object: its three data members, the allocation counter and the trace
of effects. -/
structure SSHMounter where
  process_ : Option QProcess := none
  state_ : MountState := .Idle
  currentHost_ : SSHHost := {}
  /-- Number of `QProcess` objects allocated so far. -/
  nextId : Nat := 0
  /-- Everything done so far, oldest first. -/
  trace : List Effect := []
  deriving DecidableEq, Repr

/-- The file system as `checkWritePermission` queries it. -/
structure FileSystem where
  /-- Models `QDir(path).exists()`. -/
  dirExists : String → Bool
  /-- Models `QDir(path).mkpath(".")`: the directory could be created. -/
  mkpath : String → Bool
  /-- Models `QFileInfo(path).isWritable()`, asked after the attempt to create the directory. -/
  isWritable : String → Bool

/-- A run of a helper process as the nested event loop of `mount` sees it: the chunks of
data the helper writes (to its standard output, to its standard error), each followed by a
ready-read notification, and what the process object reports once the loop has been left
through `finished` or `errorOccurred`. -/
structure HelperRun where
  chunks : List (String × String) := []
  exitCode : Int := 0
  exitStatus : ExitStatus := .NormalExit
  error : ProcessError := .UnknownError
  deriving DecidableEq, Repr

/-! ## Primitive steps -/

/-- The line terminator `newline` of `ssh_mounter.cpp`, line 26. -/
def newline : String := "\n"

/-- Records an emitted signal (`emit signal`). -/
def emit (signal : Signal) (m : SSHMounter) : SSHMounter :=
  { m with trace := m.trace ++ [Effect.emit signal] }

/-- Dereferences `process_` (every `process_->...`). -/
def deref (m : SSHMounter) : Except Fault QProcess :=
  match m.process_ with
  | none => .error .nullDereference
  | some p => if p.deleted then .error .useAfterDelete else .ok p

/-- Stores a changed process object behind the pointer `process_`. -/
def store (p : QProcess) (m : SSHMounter) : SSHMounter :=
  { m with process_ := some p }

/-- Destroys the object behind `process_` (`delete process_`).  The pointer keeps its value.
Deleting `nullptr` does nothing. -/
def deleteProcess (m : SSHMounter) : Except Fault SSHMounter :=
  match m.process_ with
  | none => .ok m
  | some p =>
    if p.deleted then .error .doubleDelete
    else .ok { m with process_ := some { p with deleted := true },
                      trace := m.trace ++ [Effect.destroy p.id] }

/-- Allocates a fresh process object and points `process_` to it
(`process_ = new QProcess(this)`). -/
def newProcess (m : SSHMounter) : SSHMounter :=
  { m with process_ := some { id := m.nextId },
           nextId := m.nextId + 1,
           trace := m.trace ++ [Effect.create m.nextId] }

/-- Sets the channel mode of the process (`process_->setProcessChannelMode(mode)`). -/
def setProcessChannelMode (mode : ProcessChannelMode) (m : SSHMounter) :
    Except Fault SSHMounter := do
  let p ← deref m
  pure (store { p with channelMode := mode } m)

/-- Starts a program in the process (`process_->start(program, arguments)`): the process
object enters `Starting`, and the values of an earlier run are reset. -/
def start (program : String) (arguments : List String) (m : SSHMounter) :
    Except Fault SSHMounter := do
  let p ← deref m
  let p := { p with program := program, arguments := arguments, state := .Starting,
                    exitCode := 0, exitStatus := .NormalExit, error := .UnknownError }
  pure { store p m with trace := m.trace ++ [Effect.start p.id program arguments] }

/-- Takes all unread standard output (`process_->readAllStandardOutput()`). -/
def readAllStandardOutput (m : SSHMounter) : Except Fault (String × SSHMounter) := do
  let p ← deref m
  pure (p.stdoutBuf, store { p with stdoutBuf := "" } m)

/-- Takes all unread standard error (`process_->readAllStandardError()`). -/
def readAllStandardError (m : SSHMounter) : Except Fault (String × SSHMounter) := do
  let p ← deref m
  pure (p.stderrBuf, store { p with stderrBuf := "" } m)

/-- Writes to the input channel (`process_->write(bytes)`).  A channel that was closed
accepts nothing any more. -/
def write (bytes : List UInt8) (m : SSHMounter) : Except Fault SSHMounter := do
  let p ← deref m
  let p := if p.writeChannelClosed then p else { p with stdinData := p.stdinData ++ bytes }
  pure { store p m with trace := m.trace ++ [Effect.write p.id bytes] }

/-- Closes the input channel (`process_->closeWriteChannel()`). -/
def closeWriteChannel (m : SSHMounter) : Except Fault SSHMounter := do
  let p ← deref m
  pure { store { p with writeChannelClosed := true } m with
           trace := m.trace ++ [Effect.closeWriteChannel p.id] }

/-- Asks the process to end (`process_->terminate()`). -/
def terminate (m : SSHMounter) : Except Fault SSHMounter := do
  let p ← deref m
  pure { store { p with terminateRequested := true } m with
           trace := m.trace ++ [Effect.terminate p.id] }

/-! ## The helper process seen from the event loop -/

/-- Data written by the helper reaches the buffers of the process object.  With
`MergedChannels` the standard error channel receives nothing: what the helper writes to its
standard error is read from standard output. -/
def deliver (out err : String) (m : SSHMounter) : Except Fault SSHMounter := do
  let p ← deref m
  let p := match p.channelMode with
    | .MergedChannels => { p with state := .Running, stdoutBuf := p.stdoutBuf ++ out ++ err }
    | .SeparateChannels =>
      { p with state := .Running, stdoutBuf := p.stdoutBuf ++ out, stderrBuf := p.stderrBuf ++ err }
  pure (store p m)

/-- The run of the helper is over: the process object is not running any more and reports
the exit code, exit status and error of the run. -/
def finishRun (run : HelperRun) (m : SSHMounter) : Except Fault SSHMounter := do
  let p ← deref m
  pure (store { p with state := .NotRunning, exitCode := run.exitCode,
                       exitStatus := run.exitStatus, error := run.error } m)

/-! ## The operations of `SSHMounter` -/

namespace SSHMounter

/-- The constructor: no process, state `Idle`. -/
def init : SSHMounter := {}

/-- Source: `SSHMounter::setState`, lines 32-37. -/
def setState (state : MountState) (m : SSHMounter) : SSHMounter :=
  if m.state_ ≠ state then
    emit (.stateChanged state) { m with state_ := state }
  else m

/-- Source: `SSHMounter::checkWritePermission`, lines 51-67.  The empty text means OK. -/
def checkWritePermission (fs : FileSystem) (path : String) : String :=
  if !fs.dirExists path && !fs.mkpath path then
    "Cannot create directory: " ++ path
  else if !fs.isWritable path then
    "No write permission for: " ++ path
  else
    ""

/-- The test for a password prompt of `onProcessOutput`, lines 239-244. -/
def passwordPrompt (output errors : String) : Bool :=
  QString.containsCI output "password" ||
  QString.containsCI errors "password" ||
  QString.contains output "Password:" ||
  QString.contains errors "Password:" ||
  QString.contains output "password for" ||
  QString.contains errors "password for"

/-- The banner tested by `onProcessOutput`, line 248. -/
def hostKeyBanner : String := "WARNING: REMOTE HOST IDENTIFICATION HAS CHANGED!"

/-- Source: `SSHMounter::onProcessOutput`, lines 231-251. -/
def onProcessOutput (m : SSHMounter) : Except Fault SSHMounter := do
  let (output, m) ← readAllStandardOutput m
  let (errors, m) ← readAllStandardError m
  let m := if passwordPrompt output errors then emit .passwordRequired m else m
  let m :=
    if QString.contains output hostKeyBanner || QString.contains errors hostKeyBanner then
      emit .hostKeyMismatch m
    else m
  pure m

/-- The chunks of a helper run arrive one after the other while the event loop of `mount`
runs; each raises a ready-read signal, which is connected to `onProcessOutput`
(lines 123-124). -/
def processChunks : List (String × String) → SSHMounter → Except Fault SSHMounter
  | [], m => pure m
  | c :: cs, m => do
    let m ← deliver c.1 c.2 m
    let m ← onProcessOutput m
    processChunks cs m

/-- The nested event loop of `mount` (`loop.exec()`, line 134): it serves the ready-read
signals of the helper and is left when the helper run is over. -/
def loopExec (run : HelperRun) (m : SSHMounter) : Except Fault SSHMounter := do
  let m ← processChunks run.chunks m
  finishRun run m

/-- The option text built by `mount`, lines 96-103. -/
def mountOptions (host : SSHHost) : String :=
  let options := "reconnect,ServerAliveInterval=15,ServerAliveCountMax=3,max_conns=16"
  if !host.usePublicKey then
    options ++ ",password_stdin,PubkeyAuthentication=no"
  else
    options ++ ",PasswordAuthentication=no"

/-- The argument list built by `mount`, lines 87-104. -/
def mountArgs (host : SSHHost) : List String :=
  let remote :=
    QString.arg (QString.arg (QString.arg "%1@%2:%3" host.user) host.host) host.remotePath
  let args := [remote, host.localPath]
  let args := args ++ ["-p", QString.number host.port]
  args ++ ["-o", mountOptions host]

/-- Source: `SSHMounter::mount`, lines 69-151.  `run` is what the helper started in line 131
does while the event loop of line 134 waits for it. -/
def mount (fs : FileSystem) (run : HelperRun) (host : SSHHost) (m : SSHMounter) :
    Except Fault (Bool × SSHMounter) :=
  if m.state_ ≠ .Idle ∧ m.state_ ≠ .Error then
    pure (false, emit (.mountError "Already busy with another operation") m)
  else
    let m := { m with currentHost_ := host }
    let m := setState .Mounting m
    -- Validate local path
    let writeErr := checkWritePermission fs host.localPath
    if !QString.isEmpty writeErr then
      let m := setState .Error m
      let m := emit (.mountError writeErr) m
      pure (false, m)
    else do
      -- Build sshfs command
      let args := mountArgs host
      let m := emit (.progressMessage ("Connecting to " ++ host.host ++ "...")) m
      let m ← if m.process_.isSome then deleteProcess m else pure m
      let m := newProcess m
      let m ← setProcessChannelMode .MergedChannels m
      -- For password auth, emit password prompt before starting
      let m := if !host.usePublicKey then emit .passwordRequired m else m
      let m ← start "sshfs" args m
      -- Now wait for completion
      let m ← loopExec run m
      let p ← deref m
      if p.exitCode = 0 ∧ p.exitStatus = .NormalExit then
        let m := setState .Idle m
        let m := emit .mountSuccess m
        pure (true, m)
      else
        let m := setState .Error m
        let (errors, m) ← readAllStandardError m
        let msg := if QString.isEmpty errors then "Mount failed with unknown error" else errors
        let msg :=
          if p.error = .FailedToStart then
            "Failed to start sshfs. Is it installed and in your PATH?"
          else msg
        let m := emit (.mountError msg) m
        pure (false, m)

/-- Source: `SSHMounter::mount`, lines 135-150: the part of `mount` that follows the event
loop, on its own.  It is the same text as the end of `mount`; `mount_eq_mountOutcome` shows
that an accepted `mount` is this function on the state in which the loop is left. -/
def mountOutcome (m : SSHMounter) : Except Fault (Bool × SSHMounter) := do
  let p ← deref m
  if p.exitCode = 0 ∧ p.exitStatus = .NormalExit then
    let m := setState .Idle m
    let m := emit .mountSuccess m
    pure (true, m)
  else
    let m := setState .Error m
    let (errors, m) ← readAllStandardError m
    let msg := if QString.isEmpty errors then "Mount failed with unknown error" else errors
    let msg :=
      if p.error = .FailedToStart then
        "Failed to start sshfs. Is it installed and in your PATH?"
      else msg
    let m := emit (.mountError msg) m
    pure (false, m)

/-- Source: `SSHMounter::unmount`, lines 153-175.  `isMac` is the compile-time flag
`Q_OS_MAC`.  The function returns right after starting the helper; the outcome arrives
later through `onProcessFinished` and `onProcessError`. -/
def unmount (isMac : Bool) (localPath : String) (m : SSHMounter) : Except Fault SSHMounter :=
  if m.state_ = .Mounting ∨ m.state_ = .Unmounting then
    pure (emit (.mountError "Already busy with another operation") m)
  else do
    let m := setState .Unmounting m
    let m := emit (.progressMessage ("Unmounting " ++ localPath ++ "...")) m
    let m ← if m.process_.isSome then deleteProcess m else pure m
    let m := newProcess m
    if isMac then
      start "umount" [localPath] m
    else
      start "fusermount" ["-u", localPath] m

/-- Source: `SSHMounter::onProcessFinished`, lines 177-207. -/
def onProcessFinished (exitCode : Int) (status : ExitStatus) (m : SSHMounter) :
    Except Fault SSHMounter := do
  let (_, m) ← readAllStandardOutput m
  let (errors, m) ← readAllStandardError m
  if m.state_ = .Mounting then
    if exitCode = 0 ∧ status = .NormalExit then
      let m := setState .Idle m
      pure (emit .mountSuccess m)
    else
      let m := setState .Error m
      let msg := if QString.isEmpty errors then "Mount failed" else errors
      pure (emit (.mountError msg) m)
  else if m.state_ = .Unmounting then
    if exitCode = 0 ∧ status = .NormalExit then
      let m := setState .Idle m
      pure (emit .unmountSuccess m)
    else
      let m := setState .Error m
      let msg := if QString.isEmpty errors then "Unmount failed" else errors
      pure (emit (.mountError msg) m)
  else
    pure m

/-- Source: `SSHMounter::getCurrentHost`, lines 209-211. -/
def getCurrentHost (m : SSHMounter) : SSHHost := m.currentHost_

/-- Source: `SSHMounter::onProcessError`, lines 213-229. -/
def onProcessError (error : ProcessError) (m : SSHMounter) : SSHMounter :=
  let msg :=
    match error with
    | .FailedToStart => "Failed to start sshfs. Is it installed?"
    | .Timedout => "Operation timed out"
    | _ => "Process error occurred"
  let m := setState .Error m
  emit (.mountError msg) m

/-- The event loop of `removeHostKey` (line 265): no slot of the orchestrator is connected
to the key-removal helper, its output stays unread until the run is over. -/
def awaitRun (run : HelperRun) (m : SSHMounter) : Except Fault SSHMounter := do
  let m ← run.chunks.foldlM (fun m c => deliver c.1 c.2 m) m
  finishRun run m

/-- Source: `SSHMounter::removeHostKey`, lines 253-268.  `keyRun` is the run of the
key-removal helper, `mountRun` the run of the helper started by the chained `mount`. -/
def removeHostKey (fs : FileSystem) (keyRun mountRun : HelperRun) (m : SSHMounter) :
    Except Fault SSHMounter := do
  let m ← if m.process_.isSome then deleteProcess m else pure m
  let m := newProcess m
  let m ← start "ssh-keygen" ["-R", m.currentHost_.host] m
  let m ← awaitRun keyRun m
  let (_, m) ← mount fs mountRun m.currentHost_ m
  pure m

/-- Source: `SSHMounter::supplyPassword`, lines 270-275. -/
def supplyPassword (password : String) (m : SSHMounter) : Except Fault SSHMounter :=
  if m.process_.isSome then do
    let p ← deref m
    if p.state = .Running then
      let m ← write (QString.toUtf8 (password ++ newline)) m
      closeWriteChannel m
    else pure m
  else pure m

/-- Source: `SSHMounter::noPassword`, lines 277-280. -/
def noPassword (m : SSHMounter) : Except Fault SSHMounter := do
  let m ← terminate m
  deleteProcess m

end SSHMounter

/-! ## The slot connected to `passwordRequired`

The window connects `passwordRequired` to `MainWindow::onPasswordRequired` (`main.cpp`,
line 232).  The connection is a direct one: the slot runs inside `emit`, before the
orchestrator goes on.  The definitions below repeat `onProcessOutput`, the event loop and
`mount` with the slot run at the two places where `passwordRequired` is emitted. -/

namespace MainWindow

/-- Source: `MainWindow::onPasswordRequired`, `main.cpp`, lines 308-325.  `rowSelected` says
whether a row of the host list is selected (`id >= 0`); `ok` and `password` are what the
input dialog returns. -/
def onPasswordRequired (rowSelected ok : Bool) (password : String) (m : SSHMounter) :
    Except Fault SSHMounter :=
  if !rowSelected then pure m
  else if ok && !QString.isEmpty password then
    SSHMounter.supplyPassword password m
  else
    let m := SSHMounter.setState .Idle m
    SSHMounter.noPassword m

end MainWindow

namespace SSHMounter

/-- Emits `passwordRequired` (`emit passwordRequired()`) and runs the connected slot. -/
def emitPasswordRequired (slot : SSHMounter → Except Fault SSHMounter) (m : SSHMounter) :
    Except Fault SSHMounter :=
  slot (emit .passwordRequired m)

/-- Source: `SSHMounter::onProcessOutput`, lines 231-251, with the slot of
`passwordRequired`. -/
def onProcessOutputWithSlot (slot : SSHMounter → Except Fault SSHMounter) (m : SSHMounter) :
    Except Fault SSHMounter := do
  let (output, m) ← readAllStandardOutput m
  let (errors, m) ← readAllStandardError m
  let m ← if passwordPrompt output errors then emitPasswordRequired slot m else pure m
  let m :=
    if QString.contains output hostKeyBanner || QString.contains errors hostKeyBanner then
      emit .hostKeyMismatch m
    else m
  pure m

/-- The chunks of a helper run are served as in `processChunks`, with the slot of
`passwordRequired`. -/
def processChunksWithSlot (slot : SSHMounter → Except Fault SSHMounter) :
    List (String × String) → SSHMounter → Except Fault SSHMounter
  | [], m => pure m
  | c :: cs, m => do
    let m ← deliver c.1 c.2 m
    let m ← onProcessOutputWithSlot slot m
    processChunksWithSlot slot cs m

/-- The nested event loop of `mount` (line 134), with the slot of `passwordRequired`. -/
def loopExecWithSlot (slot : SSHMounter → Except Fault SSHMounter) (run : HelperRun)
    (m : SSHMounter) : Except Fault SSHMounter := do
  let m ← processChunksWithSlot slot run.chunks m
  finishRun run m

/-- Source: `SSHMounter::mount`, lines 69-151, with the slot of `passwordRequired`. -/
def mountWithSlot (slot : SSHMounter → Except Fault SSHMounter) (fs : FileSystem)
    (run : HelperRun) (host : SSHHost) (m : SSHMounter) : Except Fault (Bool × SSHMounter) :=
  if m.state_ ≠ .Idle ∧ m.state_ ≠ .Error then
    pure (false, emit (.mountError "Already busy with another operation") m)
  else
    let m := { m with currentHost_ := host }
    let m := setState .Mounting m
    let writeErr := checkWritePermission fs host.localPath
    if !QString.isEmpty writeErr then
      let m := setState .Error m
      let m := emit (.mountError writeErr) m
      pure (false, m)
    else do
      let args := mountArgs host
      let m := emit (.progressMessage ("Connecting to " ++ host.host ++ "...")) m
      let m ← if m.process_.isSome then deleteProcess m else pure m
      let m := newProcess m
      let m ← setProcessChannelMode .MergedChannels m
      let m ← if !host.usePublicKey then emitPasswordRequired slot m else pure m
      let m ← start "sshfs" args m
      let m ← loopExecWithSlot slot run m
      let p ← deref m
      if p.exitCode = 0 ∧ p.exitStatus = .NormalExit then
        let m := setState .Idle m
        let m := emit .mountSuccess m
        pure (true, m)
      else
        let m := setState .Error m
        let (errors, m) ← readAllStandardError m
        let msg := if QString.isEmpty errors then "Mount failed with unknown error" else errors
        let msg :=
          if p.error = .FailedToStart then
            "Failed to start sshfs. Is it installed and in your PATH?"
          else msg
        let m := emit (.mountError msg) m
        pure (false, m)

end SSHMounter

/-! ## Sequences of operations -/

/-- One step in the life of the orchestrator: a call of a public operation, a callback of
the process, data written by the helper, or the window calling `setState(Idle)`. -/
inductive Step where
  | mount (fs : FileSystem) (run : HelperRun) (host : SSHHost)
  | unmount (isMac : Bool) (localPath : String)
  | removeHostKey (fs : FileSystem) (keyRun mountRun : HelperRun)
  | supplyPassword (password : String)
  | noPassword
  | helperOutput (out err : String)
  | onProcessOutput
  | onProcessFinished (exitCode : Int) (status : ExitStatus)
  | onProcessError (error : ProcessError)
  | setStateIdle

/-- Performs one step. -/
def Step.apply : Step → SSHMounter → Except Fault SSHMounter
  | .mount fs run host, m => (SSHMounter.mount fs run host m).map fun r => r.2
  | .unmount isMac localPath, m => SSHMounter.unmount isMac localPath m
  | .removeHostKey fs keyRun mountRun, m => SSHMounter.removeHostKey fs keyRun mountRun m
  | .supplyPassword password, m => SSHMounter.supplyPassword password m
  | .noPassword, m => SSHMounter.noPassword m
  | .helperOutput out err, m => deliver out err m
  | .onProcessOutput, m => SSHMounter.onProcessOutput m
  | .onProcessFinished exitCode status, m => SSHMounter.onProcessFinished exitCode status m
  | .onProcessError error, m => pure (SSHMounter.onProcessError error m)
  | .setStateIdle, m => pure (SSHMounter.setState .Idle m)

/-- Performs the steps one after the other. -/
def runSteps : List Step → SSHMounter → Except Fault SSHMounter
  | [], m => pure m
  | s :: ss, m => do
    let m ← s.apply m
    runSteps ss m

/-! ## The host store (`ssh_store.cpp`)

JSON values as `QJsonValue` holds them.  A number is a `double`; every finite `double` is a
rational number, and every `int` is a `double`.  Reading and writing the file and the JSON
text are left out: `SSHStore.saveDocument` is the document `save` hands to
`QJsonDocument::toJson`, `SSHStore.loadDocument` starts from the document
`QJsonDocument::fromJson` returns. -/

/-- Models `QJsonValue`. -/
inductive QJsonValue where
  | null
  | bool (b : Bool)
  | double (d : Rat)
  | string (s : String)
  | array (items : List QJsonValue)
  | object (members : List (String × QJsonValue))
  | undefined

/-- Models `QJsonObject`: the members by key; a key occurs once. -/
abbrev QJsonObject := List (String × QJsonValue)

namespace QJsonObject

/-- Models `QJsonObject::operator[](key) const`: the value of the key, `undefined` when the
key is missing. -/
def value (obj : QJsonObject) (key : String) : QJsonValue :=
  match obj.lookup key with
  | some v => v
  | none => .undefined

/-- Models the assignment `obj[key] = v`: the value of `key` is replaced or added. -/
def insert (obj : QJsonObject) (key : String) (v : QJsonValue) : QJsonObject :=
  (key, v) :: obj.filter fun kv => kv.1 != key

end QJsonObject

namespace QJsonValue

/-- Models `QJsonValue::toString()`: the text of a string value, the empty text for every
other value. -/
def toString : QJsonValue → String
  | .string s => s
  | _ => ""

/-- Models `QJsonValue::toInt(defaultValue)`: the number when the value is a whole number
in the range of `int`, the default for every other value. -/
def toInt (v : QJsonValue) (defaultValue : Int) : Int :=
  match v with
  | .double d =>
    if d.den = 1 ∧ -2147483648 ≤ d.num ∧ d.num ≤ 2147483647 then d.num else defaultValue
  | _ => defaultValue

/-- Models `QJsonValue::toArray()`: the items of an array, no items for every other value. -/
def toArray : QJsonValue → List QJsonValue
  | .array items => items
  | _ => []

/-- Models `QJsonValue::toObject()`: the members of an object, no members for every other
value. -/
def toObject : QJsonValue → QJsonObject
  | .object members => members
  | _ => []

end QJsonValue

namespace SSHHost

/-- Source: `SSHHost::toJson`, `ssh_store.cpp`, lines 25-34. -/
def toJson (h : SSHHost) : QJsonObject :=
  let obj : QJsonObject := []
  let obj := obj.insert "name" (.string h.name)
  let obj := obj.insert "user" (.string h.user)
  let obj := obj.insert "host" (.string h.host)
  let obj := obj.insert "remotePath" (.string h.remotePath)
  let obj := obj.insert "localPath" (.string h.localPath)
  let obj := obj.insert "port" (.double h.port)
  obj

/-- Source: `SSHHost::fromJson`, `ssh_store.cpp`, lines 36-45.  The record starts with the
default values of the struct, `usePublicKey = false` among them. -/
def fromJson (obj : QJsonObject) : SSHHost :=
  let h : SSHHost := {}
  let h := { h with name := (obj.value "name").toString }
  let h := { h with user := (obj.value "user").toString }
  let h := { h with host := (obj.value "host").toString }
  let h := { h with remotePath := (obj.value "remotePath").toString }
  let h := { h with localPath := (obj.value "localPath").toString }
  let h := { h with port := (obj.value "port").toInt 22 }
  h

end SSHHost

namespace SSHStore

/-- Source: `SSHStore::save`, `ssh_store.cpp`, lines 102-108 and 117: the document that is
written. -/
def saveDocument (hosts : List SSHHost) : QJsonValue :=
  let arr : List QJsonValue := hosts.map fun host => .object host.toJson
  let root : QJsonObject := []
  let root := root.insert "hosts" (.array arr)
  .object root

/-- Source: `SSHStore::load`, `ssh_store.cpp`, lines 81-92: the hosts read from a document;
`none` when the document is not an object (`load` returns false). -/
def loadDocument (doc : QJsonValue) : Option (List SSHHost) :=
  match doc with
  | .object root =>
    let arr := (QJsonObject.value root "hosts").toArray
    some (arr.map fun val => SSHHost.fromJson val.toObject)
  | _ => none

end SSHStore

/-! ## Auxiliary definitions used to state the properties -/

/-- The signals among a list of effects, in order. -/
def signalsOf : List Effect → List Signal
  | [] => []
  | Effect.emit s :: es => s :: signalsOf es
  | _ :: es => signalsOf es

/-- Recognises a `mountError` signal, whatever its text. -/
def Signal.isMountError : Signal → Bool
  | .mountError _ => true
  | _ => false

/-- Recognises the start of a program. -/
def Effect.isStart : Effect → Bool
  | .start _ _ _ => true
  | _ => false

/-- The pointer `process_` is `nullptr` or points to an object that has not been destroyed. -/
def procOk (m : SSHMounter) : Prop :=
  ∀ p, m.process_ = some p → p.deleted = false

/-- What `if (process_) delete process_;` does to the outside. -/
def releaseEffects (m : SSHMounter) : List Effect :=
  match m.process_ with
  | none => []
  | some p => [Effect.destroy p.id]

/-- The texts `onProcessOutput` finds in the two channels after the helper has written `c`:
with `MergedChannels` everything is in standard output. -/
def visibleChunk (mode : ProcessChannelMode) (c : String × String) : String × String :=
  match mode with
  | .MergedChannels => (c.1 ++ c.2, "")
  | .SeparateChannels => (c.1, c.2)

/-- The signals `onProcessOutput` raises for the texts `output` and `errors`. -/
def chunkSignals (output errors : String) : List Signal :=
  (if SSHMounter.passwordPrompt output errors then [Signal.passwordRequired] else []) ++
  (if QString.contains output SSHMounter.hostKeyBanner ||
      QString.contains errors SSHMounter.hostKeyBanner then
    [Signal.hostKeyMismatch] else [])

/-- The signals raised while the chunks of a helper run are served. -/
def loopSignals (mode : ProcessChannelMode) (chunks : List (String × String)) : List Signal :=
  chunks.flatMap fun c => chunkSignals (visibleChunk mode c).1 (visibleChunk mode c).2

/-- The effects of an accepted `mount` up to and including the start of the helper. -/
def mountPrefix (m : SSHMounter) (host : SSHHost) : List Effect :=
  [Effect.emit (.stateChanged .Mounting),
   Effect.emit (.progressMessage ("Connecting to " ++ host.host ++ "..."))] ++
  releaseEffects m ++ [Effect.create m.nextId] ++
  (if host.usePublicKey then [] else [Effect.emit .passwordRequired]) ++
  [Effect.start m.nextId "sshfs" (SSHMounter.mountArgs host)]

/-- The text `mount` reports for a failed helper run. -/
def mountFailureText (run : HelperRun) : String :=
  if run.error = .FailedToStart then "Failed to start sshfs. Is it installed and in your PATH?"
  else "Mount failed with unknown error"

/-- The effects of an accepted `mount` after the event loop has been left. -/
def mountSuffix (run : HelperRun) : List Effect :=
  if run.exitCode = 0 ∧ run.exitStatus = .NormalExit then
    [Effect.emit (.stateChanged .Idle), Effect.emit .mountSuccess]
  else
    [Effect.emit (.stateChanged .Error), Effect.emit (.mountError (mountFailureText run))]

/-- The process object an accepted `mount` leaves behind `process_`. -/
def mountProcess (m : SSHMounter) (host : SSHHost) (run : HelperRun) : QProcess :=
  { id := m.nextId, channelMode := .MergedChannels, program := "sshfs",
    arguments := SSHMounter.mountArgs host, state := .NotRunning, exitCode := run.exitCode,
    exitStatus := run.exitStatus, error := run.error }

/-- The profile `currentHost_` holds after a step: only a `mount` that is not rejected as
busy stores a new one, its argument. -/
def Step.hostAfter (s : Step) (m : SSHMounter) : SSHHost :=
  match s with
  | .mount _ _ host => if m.state_ ≠ .Idle ∧ m.state_ ≠ .Error then m.currentHost_ else host
  | _ => m.currentHost_

/-- The relation between the states before and after work that only drives the live
process behind `process_`: the members `state_` and `currentHost_` and the allocation counter
are the same, the trace has grown, and `process_` points to a live object. -/
def Extends (m m' : SSHMounter) : Prop :=
  m'.state_ = m.state_ ∧ m'.currentHost_ = m.currentHost_ ∧ m'.nextId = m.nextId ∧
  (∃ new, m'.trace = m.trace ++ new) ∧ ∃ p', m'.process_ = some p' ∧ p'.deleted = false

/-! ## Concrete data for the worked instances -/

namespace Example

/-- A file system in which every directory exists and is writable. -/
def writableFs : FileSystem := ⟨fun _ => true, fun _ => true, fun _ => true⟩

/-- A file system in which every directory exists and none is writable. -/
def readOnlyFs : FileSystem := ⟨fun _ => true, fun _ => true, fun _ => false⟩

/-- A password-mode profile. -/
def host : SSHHost :=
  { name := "box", user := "u", host := "h", remotePath := "/r", localPath := "/mnt/x" }

/-- A public-key profile. -/
def keyHost : SSHHost := { host with usePublicKey := true }

/-- A password-mode profile whose host is an IPv6 address with a zone index. -/
def zoneHost : SSHHost :=
  { name := "v6", user := "u", host := "[fe80::1%3]", remotePath := "/r", localPath := "/mnt/x" }

/-- The process object of a running mount helper. -/
def mountingProcess : QProcess :=
  { id := 0, channelMode := .MergedChannels, program := "sshfs", state := .Running }

/-- The process object of a mount helper that has just written a password prompt and the
host-key banner. -/
def bannerProcess : QProcess :=
  { id := 0, channelMode := .MergedChannels, program := "sshfs", state := .Running,
    stdoutBuf := "Password: WARNING: REMOTE HOST IDENTIFICATION HAS CHANGED!" }

/-- An orchestrator whose mount helper has unread output. -/
def bannerSeen : SSHMounter :=
  { process_ := some bannerProcess, state_ := .Mounting, currentHost_ := host, nextId := 1 }

/-- The process object of a running mount helper that has been sent the credential
`first`: its input channel is closed. -/
def credentialSentProcess : QProcess :=
  { id := 0, channelMode := .MergedChannels, program := "sshfs", state := .Running,
    stdinData := QString.toUtf8 "first" ++ [10], writeChannelClosed := true }

/-- An orchestrator whose mount helper has been sent a credential and is still running. -/
def credentialSent : SSHMounter :=
  { process_ := some credentialSentProcess, state_ := .Mounting, currentHost_ := host,
    nextId := 1,
    trace := [Effect.write 0 (QString.toUtf8 "first" ++ [10]), Effect.closeWriteChannel 0] }

/-- An orchestrator whose last mount has failed: state `Error`, the finished helper still
behind `process_`. -/
def mountFailed : SSHMounter :=
  { process_ := some { id := 0, channelMode := .MergedChannels, program := "sshfs",
                       exitCode := 1 },
    state_ := .Error, currentHost_ := host, nextId := 1 }

/-- The process object of a running unmount helper with a diagnostic on its standard
error. -/
def unmountProcess : QProcess :=
  { id := 0, program := "fusermount", arguments := ["-u", "/mnt/x"], state := .Running,
    stderrBuf := "fusermount: entry for /mnt/x not found" }

/-- An orchestrator in the middle of an unmount. -/
def unmounting : SSHMounter :=
  { process_ := some unmountProcess, state_ := .Unmounting, currentHost_ := host, nextId := 1 }

/-- A session: a successful mount, an unmount whose helper fails, and the window setting
the state back to `Idle`. -/
def session : List Step :=
  [.mount writableFs {} keyHost, .unmount false "/mnt/x", .helperOutput "" "not mounted",
   .onProcessFinished 1 .NormalExit, .setStateIdle]

/-- The orchestrator at the end of `session`. -/
def sessionEnd : SSHMounter :=
  { process_ := some { id := 1, program := "fusermount", arguments := ["-u", "/mnt/x"],
                       state := .Running },
    state_ := .Idle, currentHost_ := keyHost, nextId := 2,
    trace :=
      [Effect.emit (.stateChanged .Mounting),
       Effect.emit (.progressMessage "Connecting to h..."),
       Effect.create 0, Effect.start 0 "sshfs" (SSHMounter.mountArgs keyHost),
       Effect.emit (.stateChanged .Idle), Effect.emit .mountSuccess,
       Effect.emit (.stateChanged .Unmounting),
       Effect.emit (.progressMessage "Unmounting /mnt/x..."),
       Effect.destroy 0, Effect.create 1, Effect.start 1 "fusermount" ["-u", "/mnt/x"],
       Effect.emit (.stateChanged .Error), Effect.emit (.mountError "not mounted"),
       Effect.emit (.stateChanged .Idle)] }

/-- A list of saved profiles, one of them with public-key authentication. -/
def hosts : List SSHHost := [keyHost, host]

/-- The run of a helper that could not be started: the child process that could not
execute the program is reaped with exit code 255, and the error is `FailedToStart`. -/
def neverStarted : HelperRun := { exitCode := 255, error := .FailedToStart }

/-- The run of a helper that started, wrote a diagnostic to its standard error and ended
with exit code 1. -/
def refused : HelperRun :=
  { chunks := [("", "read: Connection reset by peer")], exitCode := 1 }

/-- An orchestrator in the middle of a mount. -/
def mounting : SSHMounter :=
  { process_ := some mountingProcess, state_ := .Mounting, currentHost_ := host, nextId := 1 }

end Example

/-! ## Lemmas on texts -/

theorem QString.isEmpty_iff (s : String) : QString.isEmpty s = true ↔ s = "" := by
  cases s with
  | mk l => cases l <;> simp [QString.isEmpty, String.ext_iff]

theorem QString.isEmpty_empty : QString.isEmpty "" = true := rfl

/-! ## Lemmas on traces -/

@[simp] theorem signalsOf_nil : signalsOf [] = [] := rfl

@[simp] theorem signalsOf_emit (s : Signal) (es : List Effect) :
    signalsOf (Effect.emit s :: es) = s :: signalsOf es := rfl

@[simp] theorem signalsOf_create (i : Nat) (es : List Effect) :
    signalsOf (Effect.create i :: es) = signalsOf es := rfl

@[simp] theorem signalsOf_destroy (i : Nat) (es : List Effect) :
    signalsOf (Effect.destroy i :: es) = signalsOf es := rfl

@[simp] theorem signalsOf_start (i : Nat) (pr : String) (as : List String) (es : List Effect) :
    signalsOf (Effect.start i pr as :: es) = signalsOf es := rfl

@[simp] theorem signalsOf_append (a b : List Effect) :
    signalsOf (a ++ b) = signalsOf a ++ signalsOf b := by
  induction a with
  | nil => rfl
  | cons e es ih => cases e <;> simp [signalsOf, ih]

@[simp] theorem signalsOf_map_emit (l : List Signal) : signalsOf (l.map Effect.emit) = l := by
  induction l with
  | nil => rfl
  | cons s l ih => simp [signalsOf, ih]

@[simp] theorem signalsOf_releaseEffects (m : SSHMounter) : signalsOf (releaseEffects m) = [] := by
  unfold releaseEffects
  cases m.process_ <;> rfl

theorem chunkSignals_mem {output errors : String} {s : Signal}
    (h : s ∈ chunkSignals output errors) : s = .passwordRequired ∨ s = .hostKeyMismatch := by
  unfold chunkSignals at h
  rcases List.mem_append.mp h with h | h
  · split at h <;> simp_all
  · split at h <;> simp_all

theorem loopSignals_mem {mode : ProcessChannelMode} {chunks : List (String × String)}
    {s : Signal} (h : s ∈ loopSignals mode chunks) :
    s = .passwordRequired ∨ s = .hostKeyMismatch := by
  unfold loopSignals at h
  rcases List.mem_flatMap.mp h with ⟨c, _, hc⟩
  exact chunkSignals_mem hc

/-! ## Lemmas on the steps -/

theorem onProcessOutput_live {m : SSHMounter} {p : QProcess} (hp : m.process_ = some p)
    (hd : p.deleted = false) :
    SSHMounter.onProcessOutput m = .ok { m with
      process_ := some { p with stdoutBuf := "", stderrBuf := "" },
      trace := m.trace ++ (chunkSignals p.stdoutBuf p.stderrBuf).map Effect.emit } := by
  by_cases h1 : SSHMounter.passwordPrompt p.stdoutBuf p.stderrBuf = true <;>
  by_cases h2 : (QString.contains p.stdoutBuf SSHMounter.hostKeyBanner ||
      QString.contains p.stderrBuf SSHMounter.hostKeyBanner) = true <;>
  simp [SSHMounter.onProcessOutput, readAllStandardOutput, readAllStandardError, deref, hp, hd,
    store, chunkSignals, emit, bind, Except.bind, pure, Except.pure, h1, h2]

theorem processChunks_live (chunks : List (String × String)) :
    ∀ (m : SSHMounter) (p : QProcess), m.process_ = some p → p.deleted = false →
      p.stdoutBuf = "" → p.stderrBuf = "" →
      SSHMounter.processChunks chunks m = .ok { m with
        process_ := some { p with state := if chunks = [] then p.state else .Running },
        trace := m.trace ++ (loopSignals p.channelMode chunks).map Effect.emit } := by
  induction chunks with
  | nil =>
    intro m p hp _ _ _
    simp [SSHMounter.processChunks, loopSignals, pure, Except.pure, ← hp]
  | cons c cs ih =>
    intro m p hp hd ho he
    cases hm : p.channelMode
    · have h1 : deliver c.1 c.2 m = .ok (store
          { p with state := .Running, stdoutBuf := c.1, stderrBuf := c.2 } m) := by
        simp [deliver, deref, hp, hd, hm, ho, he, bind, Except.bind, pure, Except.pure]
      have h2 := onProcessOutput_live (m := store
          { p with state := .Running, stdoutBuf := c.1, stderrBuf := c.2 } m) rfl hd
      have h3 := ih
        { m with process_ := some { p with state := .Running, stdoutBuf := "", stderrBuf := "" },
                 trace := m.trace ++ (chunkSignals c.1 c.2).map Effect.emit }
        { p with state := .Running, stdoutBuf := "", stderrBuf := "" } rfl hd rfl rfl
      simp only [SSHMounter.processChunks, h1, bind, Except.bind]
      rw [h2]
      simp only [store]
      rw [h3]
      simp [loopSignals, visibleChunk, hm, ho, he]
    · have h1 : deliver c.1 c.2 m = .ok (store
          { p with state := .Running, stdoutBuf := c.1 ++ c.2 } m) := by
        simp [deliver, deref, hp, hd, hm, ho, bind, Except.bind, pure, Except.pure]
      have h2 := onProcessOutput_live (m := store
          { p with state := .Running, stdoutBuf := c.1 ++ c.2 } m) rfl hd
      have h3 := ih
        { m with process_ := some { p with state := .Running, stdoutBuf := "", stderrBuf := "" },
                 trace := m.trace ++ (chunkSignals (c.1 ++ c.2) "").map Effect.emit }
        { p with state := .Running, stdoutBuf := "", stderrBuf := "" } rfl hd rfl rfl
      simp only [SSHMounter.processChunks, h1, bind, Except.bind]
      rw [h2]
      simp only [store, he]
      rw [h3]
      simp [loopSignals, visibleChunk, hm, ho, he]
theorem loopExec_live (run : HelperRun) (p : QProcess) (s : MountState) (h : SSHHost) (n : Nat)
    (t : List Effect) (hd : p.deleted = false) (ho : p.stdoutBuf = "") (he : p.stderrBuf = "") :
    SSHMounter.loopExec run ⟨some p, s, h, n, t⟩ = .ok
      ⟨some { p with state := .NotRunning, exitCode := run.exitCode,
                     exitStatus := run.exitStatus, error := run.error },
        s, h, n, t ++ (loopSignals p.channelMode run.chunks).map Effect.emit⟩ := by
  simp only [SSHMounter.loopExec, bind, Except.bind]
  rw [processChunks_live run.chunks ⟨some p, s, h, n, t⟩ p rfl hd ho he]
  simp [finishRun, deref, hd, store, bind, Except.bind, pure, Except.pure]

theorem mount_accepted (fs : FileSystem) (run : HelperRun) (host : SSHHost) (m : SSHMounter)
    (hs : m.state_ = .Idle ∨ m.state_ = .Error)
    (hv : SSHMounter.checkWritePermission fs host.localPath = "") (hp : procOk m) :
    SSHMounter.mount fs run host m = .ok
      (decide (run.exitCode = 0 ∧ run.exitStatus = .NormalExit),
       { process_ := some (mountProcess m host run),
         state_ := if run.exitCode = 0 ∧ run.exitStatus = .NormalExit then .Idle else .Error,
         currentHost_ := host,
         nextId := m.nextId + 1,
         trace := m.trace ++ mountPrefix m host ++
           (loopSignals .MergedChannels run.chunks).map Effect.emit ++ mountSuffix run }) := by
  obtain ⟨proc, st, ch, nid, tr⟩ := m
  simp only at hs
  have hst : ¬ (st ≠ .Idle ∧ st ≠ .Error) := by rcases hs with h | h <;> simp [h]
  have hmt : st ≠ .Mounting := by rcases hs with h | h <;> simp [h]
  cases hk : host.usePublicKey <;>
  by_cases hok : run.exitCode = 0 ∧ run.exitStatus = .NormalExit <;>
  cases proc with
  | none =>
    simp [SSHMounter.mount, hst, hmt, hv, SSHMounter.setState, emit, QString.isEmpty_empty,
      deleteProcess, newProcess, setProcessChannelMode, start, deref, store, loopExec_live,
      readAllStandardError, bind, Except.bind, pure, Except.pure, hok, hk, mountPrefix,
      mountSuffix, mountProcess, mountFailureText, releaseEffects]
  | some p =>
    have hd : p.deleted = false := hp p rfl
    simp [SSHMounter.mount, hst, hmt, hv, SSHMounter.setState, emit, QString.isEmpty_empty,
      deleteProcess, newProcess, setProcessChannelMode, start, deref, store, loopExec_live,
      readAllStandardError, bind, Except.bind, pure, Except.pure, hok, hk, hd, mountPrefix,
      mountSuffix, mountProcess, mountFailureText, releaseEffects]

theorem loopSignals_count_mountSuccess (mode : ProcessChannelMode)
    (chunks : List (String × String)) :
    (loopSignals mode chunks).count Signal.mountSuccess = 0 := by
  apply List.count_eq_zero.mpr
  intro h
  rcases loopSignals_mem h with h | h <;> cases h

theorem loopSignals_filter_mountError (mode : ProcessChannelMode)
    (chunks : List (String × String)) :
    (loopSignals mode chunks).filter Signal.isMountError = [] := by
  apply List.filter_eq_nil_iff.mpr
  intro s h
  rcases loopSignals_mem h with h | h <;> subst h <;> simp [Signal.isMountError]

/-! ## The claims -/

/-- C1: while the state is `Mounting` or `Unmounting`, `mount` and `unmount` are rejected as
busy.  `mount` returns false; each call appends exactly one effect to the trace, the signal
`mountError("Already busy with another operation")`, so no other signal is raised and no
process is created or started; `state_`, `currentHost_` and `process_` stay as they were. -/
theorem busy_rejected (fs : FileSystem) (run : HelperRun) (host : SSHHost) (isMac : Bool)
    (localPath : String) (m : SSHMounter)
    (h : m.state_ = .Mounting ∨ m.state_ = .Unmounting) :
    SSHMounter.mount fs run host m =
        .ok (false, { m with trace := m.trace ++
          [Effect.emit (.mountError "Already busy with another operation")] }) ∧
    SSHMounter.unmount isMac localPath m =
        .ok { m with trace := m.trace ++
          [Effect.emit (.mountError "Already busy with another operation")] } := by
  rcases h with h | h <;>
    simp [SSHMounter.mount, SSHMounter.unmount, h, emit, pure, Except.pure]

/-- Worked instance of C1: a second `mount` and an `unmount` issued during a mount. -/
theorem busy_rejected_witness :
    Example.mounting.state_ = .Mounting ∧
    SSHMounter.mount Example.writableFs {} Example.keyHost Example.mounting =
        .ok (false, { Example.mounting with trace := Example.mounting.trace ++
          [Effect.emit (.mountError "Already busy with another operation")] }) ∧
    SSHMounter.unmount false "/mnt/x" Example.mounting =
        .ok { Example.mounting with trace := Example.mounting.trace ++
          [Effect.emit (.mountError "Already busy with another operation")] } :=
  ⟨rfl, busy_rejected Example.writableFs {} Example.keyHost false "/mnt/x" Example.mounting
    (Or.inl rfl)⟩

/-- C2: an accepted `mount` (state `Idle` or `Error`, local path valid) returns, and its
outcome follows the exit code and exit status the helper process reports: with exit code 0
and normal exit the final state is `Idle`, `mountSuccess` is emitted exactly once and no
`mountError`; in every other case the final state is `Error`, exactly one `mountError` is
emitted and no `mountSuccess`. -/
theorem mount_outcome (fs : FileSystem) (run : HelperRun) (host : SSHHost) (m : SSHMounter)
    (hs : m.state_ = .Idle ∨ m.state_ = .Error)
    (hv : SSHMounter.checkWritePermission fs host.localPath = "") (hp : procOk m) :
    ∃ b m' new, SSHMounter.mount fs run host m = .ok (b, m') ∧ m'.trace = m.trace ++ new ∧
      (run.exitCode = 0 ∧ run.exitStatus = .NormalExit →
        m'.state_ = .Idle ∧ (signalsOf new).count .mountSuccess = 1 ∧
        (signalsOf new).filter Signal.isMountError = []) ∧
      (¬ (run.exitCode = 0 ∧ run.exitStatus = .NormalExit) →
        m'.state_ = .Error ∧ ((signalsOf new).filter Signal.isMountError).length = 1 ∧
        (signalsOf new).count .mountSuccess = 0) := by
  refine ⟨_, _, mountPrefix m host ++
    (loopSignals .MergedChannels run.chunks).map Effect.emit ++ mountSuffix run,
    mount_accepted fs run host m hs hv hp, by simp [List.append_assoc], ?_, ?_⟩
  · intro hok
    cases hk : host.usePublicKey <;>
      simp [hok, mountPrefix, mountSuffix, hk, Signal.isMountError, List.count_cons,
        loopSignals_count_mountSuccess, loopSignals_filter_mountError, List.filter_cons]
  · intro hok
    cases hk : host.usePublicKey <;>
      simp [hok, mountPrefix, mountSuffix, hk, Signal.isMountError, List.count_cons,
        loopSignals_count_mountSuccess, loopSignals_filter_mountError, List.filter_cons]

/-- Worked instance of C2: a password-mode mount from the initial state whose helper
prints a prompt and exits with code 0. -/
theorem mount_outcome_witness :
    (SSHMounter.init.state_ = .Idle ∨ SSHMounter.init.state_ = .Error) ∧
    SSHMounter.checkWritePermission Example.writableFs Example.host.localPath = "" ∧
    procOk SSHMounter.init ∧
    ∃ b m' new, SSHMounter.mount Example.writableFs { chunks := [("Password: ", "")] }
        Example.host SSHMounter.init = .ok (b, m') ∧
      m'.trace = SSHMounter.init.trace ++ new ∧
      (((0 : Int) = 0 ∧ ExitStatus.NormalExit = ExitStatus.NormalExit) →
        m'.state_ = .Idle ∧ (signalsOf new).count .mountSuccess = 1 ∧
        (signalsOf new).filter Signal.isMountError = []) ∧
      (¬ ((0 : Int) = 0 ∧ ExitStatus.NormalExit = ExitStatus.NormalExit) →
        m'.state_ = .Error ∧ ((signalsOf new).filter Signal.isMountError).length = 1 ∧
        (signalsOf new).count .mountSuccess = 0) :=
  ⟨Or.inl rfl, rfl, (fun _ h => by cases h),
    mount_outcome Example.writableFs { chunks := [("Password: ", "")] } Example.host
      SSHMounter.init (Or.inl rfl) rfl (fun _ h => by cases h)⟩

/-- The text of the `mountError` of an accepted mount whose helper run is reported with a
non-zero exit code or an abnormal exit: the failed-to-start text when the process error is
`FailedToStart`, and otherwise always the fallback text, whatever the helper has written,
because the process runs with `MergedChannels` and its standard error channel stays empty. -/
theorem mount_failure_text (fs : FileSystem) (run : HelperRun) (host : SSHHost)
    (m : SSHMounter) (hs : m.state_ = .Idle ∨ m.state_ = .Error)
    (hv : SSHMounter.checkWritePermission fs host.localPath = "") (hp : procOk m)
    (hfail : ¬ (run.exitCode = 0 ∧ run.exitStatus = .NormalExit)) :
    ∃ m' front, SSHMounter.mount fs run host m = .ok (false, m') ∧ m'.state_ = .Error ∧
      m'.trace = m.trace ++ front ++ [Effect.emit (.mountError
        (if run.error = .FailedToStart then
          "Failed to start sshfs. Is it installed and in your PATH?"
        else "Mount failed with unknown error"))] ∧
      (signalsOf front).filter Signal.isMountError = [] := by
  have h := mount_accepted fs run host m hs hv hp
  simp only [hfail, decide_False, if_false] at h
  refine ⟨_, mountPrefix m host ++ (loopSignals .MergedChannels run.chunks).map Effect.emit ++
    [Effect.emit (.stateChanged .Error)], h, rfl, ?_, ?_⟩
  · simp [mountSuffix, hfail, mountFailureText, List.append_assoc]
  · cases hk : host.usePublicKey <;>
      simp [mountPrefix, hk, Signal.isMountError, loopSignals_filter_mountError,
        List.filter_cons]

/-- An accepted `mount` is `mountOutcome` on the state in which the event loop is left:
state `Mounting`, the process object reporting the run, its two read buffers empty. -/
theorem mount_eq_mountOutcome (fs : FileSystem) (run : HelperRun) (host : SSHHost)
    (m : SSHMounter) (hs : m.state_ = .Idle ∨ m.state_ = .Error)
    (hv : SSHMounter.checkWritePermission fs host.localPath = "") (hp : procOk m) :
    SSHMounter.mount fs run host m = SSHMounter.mountOutcome
      { process_ := some (mountProcess m host run),
        state_ := .Mounting,
        currentHost_ := host,
        nextId := m.nextId + 1,
        trace := m.trace ++ mountPrefix m host ++
          (loopSignals .MergedChannels run.chunks).map Effect.emit } := by
  rw [mount_accepted fs run host m hs hv hp]
  by_cases hok : run.exitCode = 0 ∧ run.exitStatus = .NormalExit <;>
    simp [SSHMounter.mountOutcome, deref, mountProcess, hok, SSHMounter.setState, emit,
      readAllStandardError, store, bind, Except.bind, pure, Except.pure, mountSuffix,
      mountFailureText, QString.isEmpty_empty]

/-- The failure branch of `mountOutcome` on a live process that does not report exit code 0
with a normal exit. -/
theorem mountOutcome_failure (m : SSHMounter) (p : QProcess) (hq : m.process_ = some p)
    (hd : p.deleted = false) (hfail : ¬ (p.exitCode = 0 ∧ p.exitStatus = .NormalExit)) :
    SSHMounter.mountOutcome m = .ok (false,
      { process_ := some { p with stderrBuf := "" },
        state_ := .Error,
        currentHost_ := m.currentHost_,
        nextId := m.nextId,
        trace := m.trace ++
          (if m.state_ = .Error then [] else [Effect.emit (.stateChanged .Error)]) ++
          [Effect.emit (.mountError
            (if p.error = .FailedToStart then
              "Failed to start sshfs. Is it installed and in your PATH?"
            else if QString.isEmpty p.stderrBuf then "Mount failed with unknown error"
            else p.stderrBuf))] }) := by
  obtain ⟨proc, st, ch, nid, tr⟩ := m
  simp only at hq
  subst hq
  by_cases hst : st = .Error <;>
  by_cases hf : p.error = .FailedToStart <;>
  cases he : QString.isEmpty p.stderrBuf <;>
    simp [SSHMounter.mountOutcome, deref, hd, hfail, SSHMounter.setState, emit,
      readAllStandardError, store, bind, Except.bind, pure, Except.pure, hst, hf, he]

theorem QString.isEmpty_eq_false {s : String} (h : s ≠ "") : QString.isEmpty s = false := by
  cases hs : QString.isEmpty s
  · rfl
  · exact absurd ((QString.isEmpty_iff s).mp hs) h

/-- C4: when the validation of the local path fails with the message `M`, a `mount` called
in state `Idle` or `Error` returns false and ends in state `Error`; what it does to the
outside is exactly `stateChanged(Mounting)`, `stateChanged(Error)`, `mountError(M)`: no
process is created or started, no `progressMessage`, no `passwordRequired`.  `M` is the
cannot-create text when the directory is missing and cannot be created, and the
no-write-permission text otherwise. -/
theorem mount_invalid_path (fs : FileSystem) (run : HelperRun) (host : SSHHost)
    (m : SSHMounter) (M : String) (hs : m.state_ = .Idle ∨ m.state_ = .Error)
    (hM : SSHMounter.checkWritePermission fs host.localPath = M) (hne : M ≠ "") :
    SSHMounter.mount fs run host m = .ok (false,
      { m with state_ := .Error, currentHost_ := host,
               trace := m.trace ++ [Effect.emit (.stateChanged .Mounting),
                 Effect.emit (.stateChanged .Error), Effect.emit (.mountError M)] }) ∧
    (fs.dirExists host.localPath = false ∧ fs.mkpath host.localPath = false →
      M = "Cannot create directory: " ++ host.localPath) ∧
    (¬ (fs.dirExists host.localPath = false ∧ fs.mkpath host.localPath = false) →
      fs.isWritable host.localPath = false ∧
      M = "No write permission for: " ++ host.localPath) := by
  have he : QString.isEmpty M = false := QString.isEmpty_eq_false hne
  refine ⟨?_, ?_, ?_⟩
  · rcases hs with h | h <;>
      simp [SSHMounter.mount, h, hM, he, SSHMounter.setState, emit, pure, Except.pure]
  · rintro ⟨h1, h2⟩
    simp [SSHMounter.checkWritePermission, h1, h2] at hM
    exact hM.symm
  · intro h
    cases hw : fs.isWritable host.localPath
    · have h' : (!fs.dirExists host.localPath && !fs.mkpath host.localPath) = false := by
        cases h1 : fs.dirExists host.localPath <;> cases h2 : fs.mkpath host.localPath <;>
          simp_all
      simp [SSHMounter.checkWritePermission, h', hw] at hM
      exact ⟨rfl, hM.symm⟩
    · have h' : (!fs.dirExists host.localPath && !fs.mkpath host.localPath) = false := by
        cases h1 : fs.dirExists host.localPath <;> cases h2 : fs.mkpath host.localPath <;>
          simp_all
      simp [SSHMounter.checkWritePermission, h', hw] at hM
      exact absurd hM.symm hne

/-- Worked instance of C4 (scenario B): a public-key profile whose local path is not
writable. -/
theorem mount_invalid_path_witness :
    (SSHMounter.init.state_ = .Idle ∨ SSHMounter.init.state_ = .Error) ∧
    SSHMounter.checkWritePermission Example.readOnlyFs Example.keyHost.localPath =
      "No write permission for: /mnt/x" ∧
    "No write permission for: /mnt/x" ≠ "" ∧
    SSHMounter.mount Example.readOnlyFs {} Example.keyHost SSHMounter.init = .ok (false,
      { SSHMounter.init with
          state_ := .Error, currentHost_ := Example.keyHost,
          trace := SSHMounter.init.trace ++ [Effect.emit (.stateChanged .Mounting),
            Effect.emit (.stateChanged .Error),
            Effect.emit (.mountError "No write permission for: /mnt/x")] }) :=
  ⟨Or.inl rfl, rfl, by decide,
    (mount_invalid_path Example.readOnlyFs {} Example.keyHost SSHMounter.init
      "No write permission for: /mnt/x" (Or.inl rfl) rfl (by decide)).1⟩

/-! ## Place markers -/

theorem QString.argEscapes_append_of_not_mem (l r : List Char) (h : '%' ∉ l) :
    QString.argEscapes (l ++ r) = QString.argEscapes r := by
  induction l with
  | nil => rfl
  | cons c l ih =>
    have hc : c ≠ '%' := fun e => h (e ▸ List.mem_cons_self _ _)
    have hl : '%' ∉ l := fun e => h (List.mem_cons_of_mem _ e)
    simp [QString.argEscapes, hc, ih hl]

theorem QString.replaceArgEscapes_append_of_not_mem (n : Nat) (a l r : List Char)
    (h : '%' ∉ l) :
    QString.replaceArgEscapes n a 0 (l ++ r) = l ++ QString.replaceArgEscapes n a 0 r := by
  induction l with
  | nil => rfl
  | cons c l ih =>
    have hc : c ≠ '%' := fun e => h (e ▸ List.mem_cons_self _ _)
    have hl : '%' ∉ l := fun e => h (List.mem_cons_of_mem _ e)
    simp [QString.replaceArgEscapes, hc, ih hl]

/-- The chain of `arg` calls of `mount` builds `user@host:remotePath` when neither the
user nor the host contains a percent sign. -/
theorem QString.arg_remote (user host remotePath : String) (hu : '%' ∉ user.data)
    (hh : '%' ∉ host.data) :
    QString.arg (QString.arg (QString.arg "%1@%2:%3" user) host) remotePath =
      user ++ "@" ++ host ++ ":" ++ remotePath := by
  have h1 : QString.arg "%1@%2:%3" user = ⟨user.data ++ ['@', '%', '2', ':', '%', '3']⟩ := by
    rfl
  have e2 : QString.argEscapes (user.data ++ ['@', '%', '2', ':', '%', '3']) = [2, 3] := by
    rw [QString.argEscapes_append_of_not_mem _ _ hu]; rfl
  have h2 : QString.arg ⟨user.data ++ ['@', '%', '2', ':', '%', '3']⟩ host =
      ⟨user.data ++ ('@' :: (host.data ++ [':', '%', '3']))⟩ := by
    simp only [QString.arg, e2, QString.minEscape]
    rw [QString.replaceArgEscapes_append_of_not_mem _ _ _ _ hu]
    rfl
  have e3 : QString.argEscapes (user.data ++ ('@' :: (host.data ++ [':', '%', '3']))) = [3] := by
    rw [QString.argEscapes_append_of_not_mem _ _ hu]
    show QString.argEscapes (host.data ++ [':', '%', '3']) = [3]
    rw [QString.argEscapes_append_of_not_mem _ _ hh]; rfl
  have h3 : QString.arg ⟨user.data ++ ('@' :: (host.data ++ [':', '%', '3']))⟩ remotePath =
      ⟨user.data ++ ('@' :: (host.data ++ (':' :: remotePath.data)))⟩ := by
    simp only [QString.arg, e3, QString.minEscape]
    rw [QString.replaceArgEscapes_append_of_not_mem _ _ _ _ hu]
    show String.mk (user.data ++ ('@' ::
      QString.replaceArgEscapes 3 remotePath.data 0 (host.data ++ [':', '%', '3']))) = _
    rw [QString.replaceArgEscapes_append_of_not_mem _ _ _ _ hh]
    simp [QString.replaceArgEscapes, QString.escapeAfter, QString.escapeDigits,
      QString.digitValue]
  rw [h1, h2, h3]
  apply String.ext
  simp

/-- The argument list of `mount` for a profile whose user and host contain no percent sign:
the six arguments `user@host:remotePath`, the local path, `-p`, the port in decimal, `-o` and
the option text, which is the reconnect and keep-alive policy followed by exactly one of the
two authentication suffixes. -/
theorem mountArgs_plain (host : SSHHost) (hu : '%' ∉ host.user.data)
    (hh : '%' ∉ host.host.data) :
    SSHMounter.mountArgs host =
      [host.user ++ "@" ++ host.host ++ ":" ++ host.remotePath, host.localPath, "-p",
       QString.number host.port, "-o",
       "reconnect,ServerAliveInterval=15,ServerAliveCountMax=3,max_conns=16" ++
         (if host.usePublicKey then ",PasswordAuthentication=no"
          else ",password_stdin,PubkeyAuthentication=no")] := by
  cases hk : host.usePublicKey <;>
    simp [SSHMounter.mountArgs, SSHMounter.mountOptions, QString.arg_remote _ _ _ hu hh, hk]

/-- C5, at the failing input: for the host text `[fe80::1%3]` (an IPv6 address with a zone
index) the first argument handed to `sshfs` is not `user@host:remotePath`.  The chained
`arg` calls scan the inserted host for place markers, so the remote path replaces the `%3` of
the host as well.  The five other arguments are as described. -/
theorem mount_args_rescan_host :
    SSHMounter.mountArgs Example.zoneHost =
      ["u@[fe80::1/r]:/r", "/mnt/x", "-p", "22", "-o",
       "reconnect,ServerAliveInterval=15,ServerAliveCountMax=3,max_conns=16,password_stdin,PubkeyAuthentication=no"] ∧
    Example.zoneHost.user ++ "@" ++ Example.zoneHost.host ++ ":" ++ Example.zoneHost.remotePath =
      "u@[fe80::1%3]:/r" ∧
    (SSHMounter.mount Example.writableFs {} Example.zoneHost SSHMounter.init).map
        (fun r => r.2.trace.filter Effect.isStart) =
      .ok [Effect.start 0 "sshfs" ["u@[fe80::1/r]:/r", "/mnt/x", "-p", "22", "-o",
       "reconnect,ServerAliveInterval=15,ServerAliveCountMax=3,max_conns=16,password_stdin,PubkeyAuthentication=no"]] := by
  refine ⟨by decide, by decide, by rfl⟩

/-- C6: in an accepted `mount` the trace continues with `stateChanged(Mounting)`, the
progress message, effects `mid` that raise no signal and start nothing (the old process is
destroyed, the new one created), then, for a password-mode profile only, one
`passwordRequired`, then the start of `sshfs`, then `post`.  The signals raised for the output
chunks of the helper are all part of `post`, after the start. -/
theorem password_prompt_before_start (fs : FileSystem) (run : HelperRun) (host : SSHHost)
    (m : SSHMounter) (hs : m.state_ = .Idle ∨ m.state_ = .Error)
    (hv : SSHMounter.checkWritePermission fs host.localPath = "") (hp : procOk m) :
    ∃ b m' mid post, SSHMounter.mount fs run host m = .ok (b, m') ∧
      m'.trace = m.trace ++
        [Effect.emit (.stateChanged .Mounting),
         Effect.emit (.progressMessage ("Connecting to " ++ host.host ++ "..."))] ++ mid ++
        (if host.usePublicKey then [] else [Effect.emit .passwordRequired]) ++
        [Effect.start m.nextId "sshfs" (SSHMounter.mountArgs host)] ++ post ∧
      signalsOf mid = [] ∧ (∀ e ∈ mid, Effect.isStart e = false) ∧
      (∀ e ∈ post, Effect.isStart e = false) ∧
      post = (loopSignals .MergedChannels run.chunks).map Effect.emit ++ mountSuffix run := by
  refine ⟨_, _, releaseEffects m ++ [Effect.create m.nextId],
    (loopSignals .MergedChannels run.chunks).map Effect.emit ++ mountSuffix run,
    mount_accepted fs run host m hs hv hp, ?_, ?_, ?_, ?_, rfl⟩
  · simp [mountPrefix, List.append_assoc]
  · simp
  · intro e he
    rcases List.mem_append.mp he with h | h
    · unfold releaseEffects at h
      cases hq : m.process_ with
      | none => simp [hq] at h
      | some q => simp [hq] at h; subst h; rfl
    · simp at h; subst h; rfl
  · intro e he
    rcases List.mem_append.mp he with h | h
    · rcases List.mem_map.mp h with ⟨s, _, rfl⟩; rfl
    · unfold mountSuffix at h
      split at h <;> simp at h <;> rcases h with h | h <;> subst h <;> rfl

/-- Worked instance of C6: a password-mode mount from the initial state. -/
theorem password_prompt_before_start_witness :
    (SSHMounter.init.state_ = .Idle ∨ SSHMounter.init.state_ = .Error) ∧
    SSHMounter.checkWritePermission Example.writableFs Example.host.localPath = "" ∧
    procOk SSHMounter.init ∧
    ∃ b m' mid post, SSHMounter.mount Example.writableFs { chunks := [("Password: ", "")] }
        Example.host SSHMounter.init = .ok (b, m') ∧
      m'.trace = SSHMounter.init.trace ++
        [Effect.emit (.stateChanged .Mounting),
         Effect.emit (.progressMessage ("Connecting to " ++ Example.host.host ++ "..."))] ++
        mid ++ (if Example.host.usePublicKey then [] else [Effect.emit .passwordRequired]) ++
        [Effect.start SSHMounter.init.nextId "sshfs" (SSHMounter.mountArgs Example.host)] ++
        post ∧
      signalsOf mid = [] ∧ (∀ e ∈ mid, Effect.isStart e = false) ∧
      (∀ e ∈ post, Effect.isStart e = false) ∧
      post = (loopSignals .MergedChannels [("Password: ", "")]).map Effect.emit ++
        mountSuffix { chunks := [("Password: ", "")] } :=
  ⟨Or.inl rfl, rfl, (fun _ h => by cases h),
    password_prompt_before_start Example.writableFs { chunks := [("Password: ", "")] }
      Example.host SSHMounter.init (Or.inl rfl) rfl (fun _ h => by cases h)⟩

/-! ## Output classification -/

theorem QString.containsChars_iff (needle hay : List Char) :
    QString.containsChars needle hay = true ↔ needle <:+: hay := by
  induction hay with
  | nil => simp [QString.containsChars, List.isEmpty_iff]
  | cons c hay ih =>
    simp [QString.containsChars, ih, List.infix_cons_iff]

/-- A text that contains, case sensitively, a needle whose folded form contains the folded
form of `word` contains `word` case insensitively. -/
theorem QString.containsCI_of_contains (hay needle word : String)
    (hw : word.data.map QString.foldCase <:+: needle.data.map QString.foldCase)
    (h : QString.contains hay needle = true) : QString.containsCI hay word = true := by
  have h1 : needle.data <:+: hay.data := (QString.containsChars_iff _ _).mp h
  exact (QString.containsChars_iff _ _).mpr (hw.trans (h1.map QString.foldCase))

theorem passwordPrompt_eq (output errors : String) :
    SSHMounter.passwordPrompt output errors =
      (QString.containsCI output "password" || QString.containsCI errors "password") := by
  have w1 : "password".data.map QString.foldCase <:+: "Password:".data.map QString.foldCase :=
    ⟨[], [':'], by decide⟩
  have w2 : "password".data.map QString.foldCase <:+:
      "password for".data.map QString.foldCase := ⟨[], [' ', 'f', 'o', 'r'], by decide⟩
  have a1 := QString.containsCI_of_contains output "Password:" "password" w1
  have a2 := QString.containsCI_of_contains errors "Password:" "password" w1
  have a3 := QString.containsCI_of_contains output "password for" "password" w2
  have a4 := QString.containsCI_of_contains errors "password for" "password" w2
  unfold SSHMounter.passwordPrompt
  cases h1 : QString.containsCI output "password" <;>
  cases h2 : QString.containsCI errors "password" <;>
  cases h3 : QString.contains output "Password:" <;>
  cases h4 : QString.contains errors "Password:" <;>
  cases h5 : QString.contains output "password for" <;>
  cases h6 : QString.contains errors "password for" <;>
  simp_all

theorem chunkSignals_count_passwordRequired (output errors : String) :
    (chunkSignals output errors).count .passwordRequired =
      if SSHMounter.passwordPrompt output errors then 1 else 0 := by
  unfold chunkSignals
  by_cases h1 : SSHMounter.passwordPrompt output errors = true <;>
  by_cases h2 : (QString.contains output SSHMounter.hostKeyBanner ||
      QString.contains errors SSHMounter.hostKeyBanner) = true <;>
  simp [h1, h2, List.count_cons]

theorem loopSignals_count_passwordRequired (mode : ProcessChannelMode)
    (chunks : List (String × String)) :
    (loopSignals mode chunks).count .passwordRequired =
      (chunks.filter fun c =>
        SSHMounter.passwordPrompt (visibleChunk mode c).1 (visibleChunk mode c).2).length := by
  induction chunks with
  | nil => rfl
  | cons c cs ih =>
    have hc : loopSignals mode (c :: cs) =
        chunkSignals (visibleChunk mode c).1 (visibleChunk mode c).2 ++ loopSignals mode cs := by
      simp [loopSignals]
    rw [hc, List.count_append, ih, chunkSignals_count_passwordRequired, List.filter_cons]
    split <;> simp [Nat.add_comm]

/-- C7: the six-way test of `onProcessOutput` equals the case-insensitive test for
`password` alone; one call of `onProcessOutput` on a live process emits `passwordRequired`
once when the unread standard output or standard error contains `password` case
insensitively and not at all otherwise; and when chunks are served one after the other the
number of `passwordRequired` signals is the number of matching chunks. -/
theorem password_prompt_detection (m : SSHMounter) (p : QProcess)
    (hp : m.process_ = some p) (hd : p.deleted = false) :
    (∀ output errors, SSHMounter.passwordPrompt output errors =
      (QString.containsCI output "password" || QString.containsCI errors "password")) ∧
    (∃ m' new, SSHMounter.onProcessOutput m = .ok m' ∧ m'.trace = m.trace ++ new ∧
      (signalsOf new).count .passwordRequired =
        if QString.containsCI p.stdoutBuf "password" || QString.containsCI p.stderrBuf "password"
        then 1 else 0) ∧
    (p.stdoutBuf = "" → p.stderrBuf = "" → ∀ chunks : List (String × String),
      ∃ m' new, SSHMounter.processChunks chunks m = .ok m' ∧ m'.trace = m.trace ++ new ∧
        (signalsOf new).count .passwordRequired =
          (chunks.filter fun c =>
            QString.containsCI (visibleChunk p.channelMode c).1 "password" ||
            QString.containsCI (visibleChunk p.channelMode c).2 "password").length) := by
  refine ⟨passwordPrompt_eq, ⟨_, _, onProcessOutput_live hp hd, rfl, ?_⟩, ?_⟩
  · rw [signalsOf_map_emit, chunkSignals_count_passwordRequired, passwordPrompt_eq]
  · intro ho he chunks
    refine ⟨_, _, processChunks_live chunks m p hp hd ho he, rfl, ?_⟩
    rw [signalsOf_map_emit, loopSignals_count_passwordRequired]
    simp only [passwordPrompt_eq]

/-- Worked instance of C7: during a mount three chunks arrive, two of which mention a
password; two `passwordRequired` signals are raised. -/
theorem password_prompt_detection_witness :
    Example.mounting.process_ = some Example.mountingProcess ∧
    Example.mountingProcess.deleted = false ∧
    Example.mountingProcess.stdoutBuf = "" ∧ Example.mountingProcess.stderrBuf = "" ∧
    ∃ m' new, SSHMounter.processChunks
        [("PASSWORD: ", ""), ("hello", ""), ("", "Wrong password")] Example.mounting = .ok m' ∧
      m'.trace = Example.mounting.trace ++ new ∧
      (signalsOf new).count .passwordRequired = 2 :=
  ⟨rfl, rfl, rfl, rfl,
    (password_prompt_detection Example.mounting Example.mountingProcess rfl rfl).2.2 rfl rfl
      [("PASSWORD: ", ""), ("hello", ""), ("", "Wrong password")]⟩

/-- C8: one call of `onProcessOutput` on a live process takes the unread output, keeps the
process object otherwise as it is (not destroyed, no termination requested) and keeps
`state_`; what it does to the outside is at most two signals, in this order:
`passwordRequired` when the password test matches, `hostKeyMismatch` when the standard output
or standard error contains the banner exactly.  A banner in different letter case is not a
match. -/
theorem host_key_banner_detection (m : SSHMounter) (p : QProcess)
    (hp : m.process_ = some p) (hd : p.deleted = false) :
    SSHMounter.onProcessOutput m = .ok { m with
      process_ := some { p with stdoutBuf := "", stderrBuf := "" },
      trace := m.trace ++
        (if SSHMounter.passwordPrompt p.stdoutBuf p.stderrBuf then
          [Effect.emit .passwordRequired] else []) ++
        (if QString.contains p.stdoutBuf SSHMounter.hostKeyBanner ||
            QString.contains p.stderrBuf SSHMounter.hostKeyBanner then
          [Effect.emit .hostKeyMismatch] else []) } ∧
    SSHMounter.hostKeyBanner = "WARNING: REMOTE HOST IDENTIFICATION HAS CHANGED!" ∧
    QString.contains "Warning: remote host identification has changed!"
      SSHMounter.hostKeyBanner = false := by
  refine ⟨?_, rfl, by decide⟩
  rw [onProcessOutput_live hp hd]
  unfold chunkSignals
  by_cases h1 : SSHMounter.passwordPrompt p.stdoutBuf p.stderrBuf = true <;>
  by_cases h2 : (QString.contains p.stdoutBuf SSHMounter.hostKeyBanner ||
      QString.contains p.stderrBuf SSHMounter.hostKeyBanner) = true <;>
  simp [h1, h2]

/-- Worked instance of C8: a chunk that carries both a password prompt and the banner. -/
theorem host_key_banner_detection_witness :
    Example.bannerSeen.process_ = some Example.bannerProcess ∧
    Example.bannerProcess.deleted = false ∧
    SSHMounter.onProcessOutput Example.bannerSeen = .ok { Example.bannerSeen with
      process_ := some { Example.bannerProcess with stdoutBuf := "", stderrBuf := "" },
      trace := [Effect.emit .passwordRequired, Effect.emit .hostKeyMismatch] } :=
  ⟨rfl, rfl,
    (host_key_banner_detection Example.bannerSeen Example.bannerProcess rfl rfl).1⟩

/-! ## Credentials -/

theorem QString.toUtf8_append (a b : String) :
    QString.toUtf8 (a ++ b) = QString.toUtf8 a ++ QString.toUtf8 b := by
  simp [QString.toUtf8, List.flatMap_append]

theorem QString.toUtf8_newline : QString.toUtf8 newline = [10] := by decide

/-- C9, as stated, fails on a process whose input channel is closed: it is not true that
for every text and every orchestrator owning a live process in the `Running` state
`supplyPassword(text)` extends the input of the process by the bytes of `text` and a line
feed.  After a first credential (first part) the process is still running, and a second
`supplyPassword` delivers nothing. -/
theorem supplyPassword_not_always_written :
    SSHMounter.supplyPassword "first" Example.mounting = .ok Example.credentialSent ∧
    ¬ ∀ (text : String) (m : SSHMounter) (p : QProcess),
        m.process_ = some p → p.deleted = false → p.state = .Running →
        ∃ m' q, SSHMounter.supplyPassword text m = .ok m' ∧ m'.process_ = some q ∧
          q.stdinData = p.stdinData ++ (QString.toUtf8 text ++ [10]) := by
  refine ⟨by rfl, ?_⟩
  intro h
  obtain ⟨m', q, h1, h2, h3⟩ :=
    h "second" Example.credentialSent Example.credentialSentProcess rfl rfl rfl
  have e : SSHMounter.supplyPassword "second" Example.credentialSent =
      .ok { Example.credentialSent with
        trace := Example.credentialSent.trace ++
          [Effect.write 0 (QString.toUtf8 "second" ++ [10]), Effect.closeWriteChannel 0] } := by
    rfl
  rw [e] at h1
  injection h1 with h1
  subst h1
  injection h2 with h2
  subst h2
  revert h3
  decide

/-- C9, amended: `supplyPassword(text)` on a live process that is running and whose input
channel is still open delivers exactly the UTF-8 bytes of `text` followed by one line feed
to the input of the process and closes the input channel; it calls `write` and
`closeWriteChannel` and does nothing else, so no signal is raised and `state_` and
`currentHost_` stay as they were; afterwards no further write reaches the process. -/
theorem supplyPassword_running (text : String) (m : SSHMounter) (p : QProcess)
    (hp : m.process_ = some p) (hd : p.deleted = false) (hr : p.state = .Running)
    (hc : p.writeChannelClosed = false) :
    ∃ m', SSHMounter.supplyPassword text m = .ok m' ∧
      m' = { m with
        process_ := some { p with stdinData := p.stdinData ++ (QString.toUtf8 text ++ [10]),
                                  writeChannelClosed := true },
        trace := m.trace ++ [Effect.write p.id (QString.toUtf8 text ++ [10]),
                             Effect.closeWriteChannel p.id] } ∧
      ∀ bytes, ∃ m'', write bytes m' = .ok m'' ∧
        m''.process_.map (fun q => q.stdinData) =
          some (p.stdinData ++ (QString.toUtf8 text ++ [10])) := by
  refine ⟨_, ?_, rfl, ?_⟩
  · simp [SSHMounter.supplyPassword, hp, hd, hr, hc, deref, write, closeWriteChannel, store,
      bind, Except.bind, pure, Except.pure, QString.toUtf8_append, QString.toUtf8_newline]
  · intro bytes
    simp [write, deref, hd, store, bind, Except.bind, pure, Except.pure]

/-- Worked instance of amended C9: the first credential supplied during a mount. -/
theorem supplyPassword_running_witness :
    Example.mounting.process_ = some Example.mountingProcess ∧
    Example.mountingProcess.deleted = false ∧
    Example.mountingProcess.state = .Running ∧
    Example.mountingProcess.writeChannelClosed = false ∧
    ∃ m', SSHMounter.supplyPassword "pw" Example.mounting = .ok m' ∧
      m' = { Example.mounting with
        process_ := some { Example.mountingProcess with
          stdinData := Example.mountingProcess.stdinData ++ (QString.toUtf8 "pw" ++ [10]),
          writeChannelClosed := true },
        trace := Example.mounting.trace ++
          [Effect.write Example.mountingProcess.id (QString.toUtf8 "pw" ++ [10]),
           Effect.closeWriteChannel Example.mountingProcess.id] } ∧
      ∀ bytes, ∃ m'', write bytes m' = .ok m'' ∧
        m''.process_.map (fun q => q.stdinData) =
          some (Example.mountingProcess.stdinData ++ (QString.toUtf8 "pw" ++ [10])) :=
  ⟨rfl, rfl, rfl, rfl,
    supplyPassword_running "pw" Example.mounting Example.mountingProcess rfl rfl rfl rfl⟩

/-- C10: `noPassword()` on a live process asks that process to terminate and destroys it.
These two are its only effects: no signal is raised; `state_` and `currentHost_` stay as
they were, and `process_` still holds the address of the destroyed object. -/
theorem noPassword_live (m : SSHMounter) (p : QProcess) (hp : m.process_ = some p)
    (hd : p.deleted = false) :
    SSHMounter.noPassword m = .ok { m with
      process_ := some { p with terminateRequested := true, deleted := true },
      trace := m.trace ++ [Effect.terminate p.id, Effect.destroy p.id] } := by
  simp [SSHMounter.noPassword, terminate, deleteProcess, deref, hp, hd, store, bind,
    Except.bind, pure, Except.pure]

/-- Worked instance of C10: the credential is declined during a mount; the state stays
`Mounting`. -/
theorem noPassword_live_witness :
    Example.mounting.process_ = some Example.mountingProcess ∧
    Example.mountingProcess.deleted = false ∧
    SSHMounter.noPassword Example.mounting = .ok { Example.mounting with
      process_ := some { Example.mountingProcess with
        terminateRequested := true, deleted := true },
      trace := Example.mounting.trace ++
        [Effect.terminate Example.mountingProcess.id,
         Effect.destroy Example.mountingProcess.id] } ∧
    Example.mounting.state_ = .Mounting :=
  ⟨rfl, rfl, noPassword_live Example.mounting Example.mountingProcess rfl rfl, rfl⟩

/-! ## Release of the process -/

/-- C11, at the failing input: the credential is declined during a mount, as
`MainWindow::onPasswordRequired` does it (`setState(Idle)`, then `noPassword()`).  Afterwards
`process_` still holds the address of the destroyed process object.  The next `mount`,
`unmount` or `removeHostKey` destroys that object a second time, and the next
`supplyPassword` or `noPassword` uses it. -/
theorem noPassword_leaves_dangling_pointer :
    (SSHMounter.noPassword (SSHMounter.setState .Idle Example.mounting)).map
        (fun r => r.process_.map fun q => (q.id, q.deleted)) = .ok (some (0, true)) ∧
    (SSHMounter.noPassword (SSHMounter.setState .Idle Example.mounting)).bind
        (fun r => SSHMounter.mount Example.writableFs {} Example.host r) =
      .error .doubleDelete ∧
    (SSHMounter.noPassword (SSHMounter.setState .Idle Example.mounting)).bind
        (fun r => SSHMounter.unmount false "/mnt/x" r) = .error .doubleDelete ∧
    (SSHMounter.noPassword (SSHMounter.setState .Idle Example.mounting)).bind
        (fun r => SSHMounter.removeHostKey Example.writableFs {} {} r) =
      .error .doubleDelete ∧
    (SSHMounter.noPassword (SSHMounter.setState .Idle Example.mounting)).bind
        (fun r => SSHMounter.supplyPassword "pw" r) = .error .useAfterDelete ∧
    (SSHMounter.noPassword (SSHMounter.setState .Idle Example.mounting)).bind
        (fun r => SSHMounter.noPassword r) = .error .useAfterDelete := by
  refine ⟨by rfl, by rfl, by rfl, by rfl, by rfl, by rfl⟩

/-- After `noPassword` on a live process the pointer `process_` is never in order. -/
theorem noPassword_not_procOk (m m' : SSHMounter) (h : SSHMounter.noPassword m = .ok m') :
    ¬ procOk m' := by
  cases hq : m.process_ with
  | none => simp [SSHMounter.noPassword, terminate, deref, hq, bind, Except.bind] at h
  | some p =>
    cases hd : p.deleted with
    | true => simp [SSHMounter.noPassword, terminate, deref, hq, hd, bind, Except.bind] at h
    | false =>
      simp [SSHMounter.noPassword, terminate, deleteProcess, deref, hq, hd, store, bind,
        Except.bind, pure, Except.pure] at h
      subst h
      intro hok
      have := hok _ rfl
      simp at this

/-! ## What every operation does to `state_` and `currentHost_` -/

theorem not_procOk_iff (m : SSHMounter) :
    ¬ procOk m ↔ ∃ p, m.process_ = some p ∧ p.deleted = true := by
  unfold procOk
  constructor
  · intro h
    by_contra hne
    apply h
    intro p hp
    cases hd : p.deleted with
    | false => rfl
    | true => exact absurd ⟨p, hp, hd⟩ hne
  · rintro ⟨p, hp, hd⟩ h
    have := h p hp
    rw [hd] at this
    cases this

/-- A `mount` that returns was either rejected as busy, and then kept `state_` and
`currentHost_`, or it stored its profile in `currentHost_` and ended in `Idle` or `Error`. -/
theorem mount_result (fs : FileSystem) (run : HelperRun) (host : SSHHost) (m m' : SSHMounter)
    (b : Bool) (h : SSHMounter.mount fs run host m = .ok (b, m')) :
    ((m.state_ ≠ .Idle ∧ m.state_ ≠ .Error) ∧ m'.state_ = m.state_ ∧
      m'.currentHost_ = m.currentHost_) ∨
    (¬ (m.state_ ≠ .Idle ∧ m.state_ ≠ .Error) ∧ m'.currentHost_ = host ∧
      (m'.state_ = .Idle ∨ m'.state_ = .Error)) := by
  by_cases hb : m.state_ ≠ .Idle ∧ m.state_ ≠ .Error
  · left
    simp [SSHMounter.mount, hb, emit, pure, Except.pure] at h
    obtain ⟨-, rfl⟩ := h
    exact ⟨hb, rfl, rfl⟩
  · right
    refine ⟨hb, ?_⟩
    have hs : m.state_ = .Idle ∨ m.state_ = .Error := by
      by_cases h1 : m.state_ = .Idle
      · exact Or.inl h1
      · by_cases h2 : m.state_ = .Error
        · exact Or.inr h2
        · exact absurd ⟨h1, h2⟩ hb
    by_cases hv : SSHMounter.checkWritePermission fs host.localPath = ""
    · by_cases hp : procOk m
      · rw [mount_accepted fs run host m hs hv hp] at h
        injection h with h
        injection h with _ h
        subst h
        refine ⟨rfl, ?_⟩
        by_cases hok : run.exitCode = 0 ∧ run.exitStatus = .NormalExit <;> simp [hok]
      · obtain ⟨p, hq, hd⟩ := (not_procOk_iff m).mp hp
        rcases hs with hs | hs <;>
          simp [SSHMounter.mount, hs, hv, SSHMounter.setState, emit, QString.isEmpty_empty,
            deleteProcess, hq, hd, bind, Except.bind] at h
    · have he : QString.isEmpty (SSHMounter.checkWritePermission fs host.localPath) = false :=
        QString.isEmpty_eq_false hv
      rcases hs with hs | hs <;>
        simp [SSHMounter.mount, hs, he, SSHMounter.setState, emit, pure, Except.pure] at h <;>
        obtain ⟨-, rfl⟩ := h <;> exact ⟨rfl, Or.inr rfl⟩

/-- With the pointer `process_` in order, `mount` returns; it only adds to the trace, and
it leaves the pointer in order. -/
theorem mount_total (fs : FileSystem) (run : HelperRun) (host : SSHHost) (m : SSHMounter)
    (hp : procOk m) :
    ∃ b m' new, SSHMounter.mount fs run host m = .ok (b, m') ∧ m'.trace = m.trace ++ new ∧
      procOk m' := by
  by_cases hb : m.state_ ≠ .Idle ∧ m.state_ ≠ .Error
  · refine ⟨false, emit (.mountError "Already busy with another operation") m,
      [Effect.emit (.mountError "Already busy with another operation")], ?_, rfl, hp⟩
    simp [SSHMounter.mount, hb, pure, Except.pure]
  · have hs : m.state_ = .Idle ∨ m.state_ = .Error := by
      by_cases h1 : m.state_ = .Idle
      · exact Or.inl h1
      · by_cases h2 : m.state_ = .Error
        · exact Or.inr h2
        · exact absurd ⟨h1, h2⟩ hb
    by_cases hv : SSHMounter.checkWritePermission fs host.localPath = ""
    · refine ⟨_, _, mountPrefix m host ++
        (loopSignals .MergedChannels run.chunks).map Effect.emit ++ mountSuffix run,
        mount_accepted fs run host m hs hv hp, ?_, ?_⟩
      · simp only [List.append_assoc]
      · intro q hq
        injection hq with hq
        subst hq
        rfl
    · have he : QString.isEmpty (SSHMounter.checkWritePermission fs host.localPath) = false :=
        QString.isEmpty_eq_false hv
      refine ⟨false,
        { m with
          state_ := .Error, currentHost_ := host,
          trace := m.trace ++ [Effect.emit (.stateChanged .Mounting),
            Effect.emit (.stateChanged .Error),
            Effect.emit (.mountError (SSHMounter.checkWritePermission fs host.localPath))] },
        _, ?_, rfl, fun q hq => hp q hq⟩
      rcases hs with hs | hs <;>
        simp [SSHMounter.mount, hs, he, SSHMounter.setState, emit, pure, Except.pure]

/-! ## Removing the host key -/

theorem deliverAll_live (chunks : List (String × String)) :
    ∀ (m : SSHMounter) (p : QProcess), m.process_ = some p → p.deleted = false →
      ∃ p', chunks.foldlM (fun m c => deliver c.1 c.2 m) m = .ok { m with process_ := some p' } ∧
        p'.deleted = false ∧ p'.id = p.id ∧ p'.program = p.program ∧
        p'.arguments = p.arguments := by
  induction chunks with
  | nil =>
    intro m p hp hd
    exact ⟨p, by simp [pure, Except.pure, ← hp], hd, rfl, rfl, rfl⟩
  | cons c cs ih =>
    intro m p hp hd
    cases hm : p.channelMode
    · have hdel : deliver c.1 c.2 m = .ok (store
          { p with state := .Running, stdoutBuf := p.stdoutBuf ++ c.1,
                   stderrBuf := p.stderrBuf ++ c.2 } m) := by
        simp [deliver, deref, hp, hd, hm, bind, Except.bind, pure, Except.pure]
      obtain ⟨p', h1, h2, h3, h4, h5⟩ := ih
        (store { p with state := .Running, stdoutBuf := p.stdoutBuf ++ c.1,
                        stderrBuf := p.stderrBuf ++ c.2 } m)
        { p with state := .Running, stdoutBuf := p.stdoutBuf ++ c.1,
                 stderrBuf := p.stderrBuf ++ c.2 } rfl hd
      refine ⟨p', ?_, h2, h3, h4, h5⟩
      rw [List.foldlM_cons, hdel]
      exact h1
    · have hdel : deliver c.1 c.2 m = .ok (store
          { p with state := .Running, stdoutBuf := p.stdoutBuf ++ c.1 ++ c.2 } m) := by
        simp [deliver, deref, hp, hd, hm, bind, Except.bind, pure, Except.pure]
      obtain ⟨p', h1, h2, h3, h4, h5⟩ := ih
        (store { p with state := .Running, stdoutBuf := p.stdoutBuf ++ c.1 ++ c.2 } m)
        { p with state := .Running, stdoutBuf := p.stdoutBuf ++ c.1 ++ c.2 } rfl hd
      refine ⟨p', ?_, h2, h3, h4, h5⟩
      rw [List.foldlM_cons, hdel]
      exact h1

theorem awaitRun_live (run : HelperRun) (p : QProcess) (s : MountState) (h : SSHHost) (n : Nat)
    (t : List Effect) (hd : p.deleted = false) :
    ∃ p', SSHMounter.awaitRun run ⟨some p, s, h, n, t⟩ = .ok ⟨some p', s, h, n, t⟩ ∧
      p'.deleted = false ∧ p'.state = .NotRunning ∧ p'.id = p.id ∧ p'.program = p.program ∧
      p'.arguments = p.arguments := by
  obtain ⟨q, h1, h2, h3, h4, h5⟩ := deliverAll_live run.chunks ⟨some p, s, h, n, t⟩ p rfl hd
  refine ⟨{ q with state := .NotRunning, exitCode := run.exitCode,
                   exitStatus := run.exitStatus, error := run.error }, ?_, h2, rfl, h3, h4, h5⟩
  simp only [SSHMounter.awaitRun, bind, Except.bind, h1]
  simp [finishRun, deref, h2, store, bind, Except.bind, pure, Except.pure]

/-- The state in which `removeHostKey` calls `mount`: one key-removal helper has been
started and has ended; `state_` and `currentHost_` are as before. -/
theorem removeHostKey_key_phase (fs : FileSystem) (keyRun mountRun : HelperRun)
    (m : SSHMounter) (hp : procOk m) :
    ∃ p1, p1.id = m.nextId ∧ p1.deleted = false ∧ p1.state = .NotRunning ∧
      p1.program = "ssh-keygen" ∧ p1.arguments = ["-R", m.currentHost_.host] ∧
      SSHMounter.removeHostKey fs keyRun mountRun m =
        (SSHMounter.mount fs mountRun m.currentHost_
          { m with
            process_ := some p1, nextId := m.nextId + 1,
            trace := m.trace ++ releaseEffects m ++
              [Effect.create m.nextId,
               Effect.start m.nextId "ssh-keygen" ["-R", m.currentHost_.host]] }).map
          fun r => r.2 := by
  obtain ⟨proc, st, ch, nid, tr⟩ := m
  cases proc with
  | none =>
    obtain ⟨p', h1, h2, h3, h4, h5, h6⟩ := awaitRun_live keyRun
      { id := nid, program := "ssh-keygen", arguments := ["-R", ch.host], state := .Starting }
      st ch (nid + 1)
      (tr ++ [] ++ [Effect.create nid, Effect.start nid "ssh-keygen" ["-R", ch.host]]) rfl
    refine ⟨p', h4, h2, h3, h5, h6, ?_⟩
    simp only [SSHMounter.removeHostKey, newProcess, start, deref, store, releaseEffects,
      bind, Except.bind, pure, Except.pure, Option.isSome, List.append_assoc,
      List.cons_append, List.nil_append, List.append_nil, Bool.false_eq_true, if_false]
      at h1 ⊢
    rw [h1]
    dsimp only
    split <;> rename_i hmt <;> simp [hmt, Except.map]
  | some p =>
    have hd : p.deleted = false := hp p rfl
    obtain ⟨p', h1, h2, h3, h4, h5, h6⟩ := awaitRun_live keyRun
      { id := nid, program := "ssh-keygen", arguments := ["-R", ch.host], state := .Starting }
      st ch (nid + 1)
      (tr ++ [Effect.destroy p.id] ++
        [Effect.create nid, Effect.start nid "ssh-keygen" ["-R", ch.host]]) rfl
    refine ⟨p', h4, h2, h3, h5, h6, ?_⟩
    simp only [SSHMounter.removeHostKey, deleteProcess, hd, newProcess, start, deref, store,
      releaseEffects, bind, Except.bind, pure, Except.pure, Option.isSome, List.append_assoc,
      List.cons_append, List.nil_append, List.append_nil, Bool.false_eq_true, if_false,
      if_true] at h1 ⊢
    rw [h1]
    dsimp only
    split <;> rename_i hmt <;> simp [hmt, Except.map]

/-! ## Frame lemmas -/

theorem unmount_accepted (isMac : Bool) (localPath : String) (m : SSHMounter)
    (hs : ¬ (m.state_ = .Mounting ∨ m.state_ = .Unmounting)) (hp : procOk m) :
    SSHMounter.unmount isMac localPath m = .ok
      { process_ := some
          { id := m.nextId, program := if isMac then "umount" else "fusermount",
            arguments := if isMac then [localPath] else ["-u", localPath],
            state := .Starting },
        state_ := .Unmounting,
        currentHost_ := m.currentHost_,
        nextId := m.nextId + 1,
        trace := m.trace ++
          [Effect.emit (.stateChanged .Unmounting),
           Effect.emit (.progressMessage ("Unmounting " ++ localPath ++ "..."))] ++
          releaseEffects m ++
          [Effect.create m.nextId,
           Effect.start m.nextId (if isMac then "umount" else "fusermount")
             (if isMac then [localPath] else ["-u", localPath])] } := by
  obtain ⟨proc, st, ch, nid, tr⟩ := m
  simp only at hs
  have hu : st ≠ .Unmounting := fun e => hs (Or.inr e)
  have hm : st ≠ .Mounting := fun e => hs (Or.inl e)
  cases isMac <;> cases proc with
  | none =>
    simp [SSHMounter.unmount, hm, hu, SSHMounter.setState, emit, newProcess, start, deref,
      store, releaseEffects, bind, Except.bind, pure, Except.pure]
  | some p =>
    have hd : p.deleted = false := hp p rfl
    simp [SSHMounter.unmount, hm, hu, SSHMounter.setState, emit, deleteProcess, hd, newProcess,
      start, deref, store, releaseEffects, bind, Except.bind, pure, Except.pure]

theorem unmount_result (isMac : Bool) (localPath : String) (m m' : SSHMounter)
    (h : SSHMounter.unmount isMac localPath m = .ok m') :
    m'.currentHost_ = m.currentHost_ ∧ (m'.state_ = m.state_ ∨ m'.state_ = .Unmounting) := by
  by_cases hs : m.state_ = .Mounting ∨ m.state_ = .Unmounting
  · simp [SSHMounter.unmount, hs, emit, pure, Except.pure] at h
    subst h
    exact ⟨rfl, Or.inl rfl⟩
  · by_cases hp : procOk m
    · rw [unmount_accepted isMac localPath m hs hp] at h
      injection h with h
      subst h
      exact ⟨rfl, Or.inr rfl⟩
    · obtain ⟨p, hq, hd⟩ := (not_procOk_iff m).mp hp
      simp [SSHMounter.unmount, hs, SSHMounter.setState, emit, deleteProcess, hq, hd, bind,
        Except.bind] at h
      split at h <;> simp [deleteProcess, hq, hd] at h

theorem supplyPassword_result (text : String) (m m' : SSHMounter)
    (h : SSHMounter.supplyPassword text m = .ok m') :
    m'.currentHost_ = m.currentHost_ ∧ m'.state_ = m.state_ := by
  cases hq : m.process_ with
  | none =>
    simp [SSHMounter.supplyPassword, hq, pure, Except.pure] at h
    subst h
    exact ⟨rfl, rfl⟩
  | some p =>
    cases hd : p.deleted with
    | true => simp [SSHMounter.supplyPassword, hq, hd, deref, bind, Except.bind] at h
    | false =>
      by_cases hr : p.state = .Running
      · cases hc : p.writeChannelClosed <;>
          simp [SSHMounter.supplyPassword, hq, hd, hr, hc, deref, write, closeWriteChannel,
            store, bind, Except.bind, pure, Except.pure] at h <;>
          subst h <;> exact ⟨rfl, rfl⟩
      · simp [SSHMounter.supplyPassword, hq, hd, hr, deref, bind, Except.bind, pure,
          Except.pure] at h
        subst h
        exact ⟨rfl, rfl⟩

theorem noPassword_result (m m' : SSHMounter) (h : SSHMounter.noPassword m = .ok m') :
    m'.currentHost_ = m.currentHost_ ∧ m'.state_ = m.state_ := by
  cases hq : m.process_ with
  | none => simp [SSHMounter.noPassword, terminate, deref, hq, bind, Except.bind] at h
  | some p =>
    cases hd : p.deleted with
    | true => simp [SSHMounter.noPassword, terminate, deref, hq, hd, bind, Except.bind] at h
    | false =>
      simp [SSHMounter.noPassword, terminate, deleteProcess, deref, hq, hd, store, bind,
        Except.bind, pure, Except.pure] at h
      subst h
      exact ⟨rfl, rfl⟩

theorem deliver_result (out err : String) (m m' : SSHMounter)
    (h : deliver out err m = .ok m') :
    m'.currentHost_ = m.currentHost_ ∧ m'.state_ = m.state_ := by
  cases hq : m.process_ with
  | none => simp [deliver, deref, hq, bind, Except.bind] at h
  | some p =>
    cases hd : p.deleted with
    | true => simp [deliver, deref, hq, hd, bind, Except.bind] at h
    | false =>
      simp [deliver, deref, hq, hd, store, bind, Except.bind, pure, Except.pure] at h
      subst h
      exact ⟨rfl, rfl⟩

theorem onProcessOutput_result (m m' : SSHMounter)
    (h : SSHMounter.onProcessOutput m = .ok m') :
    m'.currentHost_ = m.currentHost_ ∧ m'.state_ = m.state_ := by
  cases hq : m.process_ with
  | none =>
    simp [SSHMounter.onProcessOutput, readAllStandardOutput, deref, hq, bind, Except.bind] at h
  | some p =>
    cases hd : p.deleted with
    | true =>
      simp [SSHMounter.onProcessOutput, readAllStandardOutput, deref, hq, hd, bind,
        Except.bind] at h
    | false =>
      rw [onProcessOutput_live hq hd] at h
      injection h with h
      subst h
      exact ⟨rfl, rfl⟩

theorem onProcessFinished_live (exitCode : Int) (status : ExitStatus) {m : SSHMounter}
    {p : QProcess} (hq : m.process_ = some p) (hd : p.deleted = false) :
    SSHMounter.onProcessFinished exitCode status m = .ok
      (if m.state_ = .Mounting then
        if exitCode = 0 ∧ status = .NormalExit then
          emit .mountSuccess (SSHMounter.setState .Idle
            { m with process_ := some { p with stdoutBuf := "", stderrBuf := "" } })
        else
          emit (.mountError (if QString.isEmpty p.stderrBuf then "Mount failed" else p.stderrBuf))
            (SSHMounter.setState .Error
              { m with process_ := some { p with stdoutBuf := "", stderrBuf := "" } })
      else if m.state_ = .Unmounting then
        if exitCode = 0 ∧ status = .NormalExit then
          emit .unmountSuccess (SSHMounter.setState .Idle
            { m with process_ := some { p with stdoutBuf := "", stderrBuf := "" } })
        else
          emit (.mountError
              (if QString.isEmpty p.stderrBuf then "Unmount failed" else p.stderrBuf))
            (SSHMounter.setState .Error
              { m with process_ := some { p with stdoutBuf := "", stderrBuf := "" } })
      else { m with process_ := some { p with stdoutBuf := "", stderrBuf := "" } }) := by
  by_cases h1 : m.state_ = .Mounting <;> by_cases h2 : m.state_ = .Unmounting <;>
    by_cases h3 : exitCode = 0 ∧ status = .NormalExit <;>
    simp [SSHMounter.onProcessFinished, readAllStandardOutput, readAllStandardError, deref, hq,
      hd, store, bind, Except.bind, pure, Except.pure, h1, h2, h3]

theorem onProcessFinished_result (exitCode : Int) (status : ExitStatus) (m m' : SSHMounter)
    (h : SSHMounter.onProcessFinished exitCode status m = .ok m') :
    m'.currentHost_ = m.currentHost_ ∧
      (m'.state_ = m.state_ ∨ m'.state_ = .Idle ∨ m'.state_ = .Error) := by
  cases hq : m.process_ with
  | none =>
    simp [SSHMounter.onProcessFinished, readAllStandardOutput, deref, hq, bind,
      Except.bind] at h
  | some p =>
    cases hd : p.deleted with
    | true =>
      simp [SSHMounter.onProcessFinished, readAllStandardOutput, deref, hq, hd, bind,
        Except.bind] at h
    | false =>
      rw [onProcessFinished_live exitCode status hq hd] at h
      injection h with h
      subst h
      by_cases h1 : m.state_ = .Mounting <;> by_cases h2 : m.state_ = .Unmounting <;>
        by_cases h3 : exitCode = 0 ∧ status = .NormalExit <;>
        simp [h1, h2, h3, SSHMounter.setState, emit]

theorem removeHostKey_result (fs : FileSystem) (keyRun mountRun : HelperRun)
    (m m' : SSHMounter) (h : SSHMounter.removeHostKey fs keyRun mountRun m = .ok m') :
    m'.currentHost_ = m.currentHost_ ∧
      (m'.state_ = m.state_ ∨ m'.state_ = .Idle ∨ m'.state_ = .Error) := by
  by_cases hp : procOk m
  · obtain ⟨p1, -, -, -, -, -, he⟩ := removeHostKey_key_phase fs keyRun mountRun m hp
    rw [he] at h
    cases hm : SSHMounter.mount fs mountRun m.currentHost_
        { m with
          process_ := some p1, nextId := m.nextId + 1,
          trace := m.trace ++ releaseEffects m ++
            [Effect.create m.nextId,
             Effect.start m.nextId "ssh-keygen" ["-R", m.currentHost_.host]] } with
    | error e => rw [hm] at h; cases h
    | ok r =>
      rw [hm] at h
      injection h with h
      subst h
      obtain ⟨b, r2⟩ := r
      rcases mount_result _ _ _ _ _ _ hm with ⟨-, h1, h2⟩ | ⟨-, h1, h2⟩
      · exact ⟨h2, Or.inl h1⟩
      · exact ⟨h1, Or.inr h2⟩
  · obtain ⟨p, hq, hd⟩ := (not_procOk_iff m).mp hp
    simp [SSHMounter.removeHostKey, deleteProcess, hq, hd, bind, Except.bind] at h

/-- What one step does to `state_` and `currentHost_`: the state stays or becomes `Idle`,
`Unmounting` or `Error`; the stored profile changes only in a `mount` that is not rejected
as busy, which stores its argument. -/
theorem Step.apply_result (s : Step) (m m' : SSHMounter) (h : s.apply m = .ok m') :
    (m'.state_ = m.state_ ∨ m'.state_ = .Idle ∨ m'.state_ = .Unmounting ∨
      m'.state_ = .Error) ∧
    m'.currentHost_ = s.hostAfter m := by
  cases s with
  | mount fs run host =>
    simp only [Step.apply] at h
    cases hm : SSHMounter.mount fs run host m with
    | error e => rw [hm] at h; cases h
    | ok r =>
      rw [hm] at h
      injection h with h
      subst h
      obtain ⟨b, r2⟩ := r
      rcases mount_result _ _ _ _ _ _ hm with ⟨hb, h1, h2⟩ | ⟨hb, h1, h2⟩
      · exact ⟨Or.inl h1, by simp only [Step.hostAfter]; rw [if_pos hb]; exact h2⟩
      · refine ⟨?_, by simp only [Step.hostAfter]; rw [if_neg hb]; exact h1⟩
        rcases h2 with h2 | h2
        · exact Or.inr (Or.inl h2)
        · exact Or.inr (Or.inr (Or.inr h2))
  | unmount isMac localPath =>
    obtain ⟨h1, h2⟩ := unmount_result _ _ _ _ h
    refine ⟨?_, h1⟩
    rcases h2 with h2 | h2
    · exact Or.inl h2
    · exact Or.inr (Or.inr (Or.inl h2))
  | removeHostKey fs keyRun mountRun =>
    obtain ⟨h1, h2⟩ := removeHostKey_result _ _ _ _ _ h
    refine ⟨?_, h1⟩
    rcases h2 with h2 | h2 | h2
    · exact Or.inl h2
    · exact Or.inr (Or.inl h2)
    · exact Or.inr (Or.inr (Or.inr h2))
  | supplyPassword password =>
    obtain ⟨h1, h2⟩ := supplyPassword_result _ _ _ h
    exact ⟨Or.inl h2, h1⟩
  | noPassword =>
    obtain ⟨h1, h2⟩ := noPassword_result _ _ h
    exact ⟨Or.inl h2, h1⟩
  | helperOutput out err =>
    obtain ⟨h1, h2⟩ := deliver_result _ _ _ _ h
    exact ⟨Or.inl h2, h1⟩
  | onProcessOutput =>
    obtain ⟨h1, h2⟩ := onProcessOutput_result _ _ h
    exact ⟨Or.inl h2, h1⟩
  | onProcessFinished exitCode status =>
    obtain ⟨h1, h2⟩ := onProcessFinished_result _ _ _ _ h
    refine ⟨?_, h1⟩
    rcases h2 with h2 | h2 | h2
    · exact Or.inl h2
    · exact Or.inr (Or.inl h2)
    · exact Or.inr (Or.inr (Or.inr h2))
  | onProcessError error =>
    simp only [Step.apply, pure, Except.pure] at h
    injection h with h
    subst h
    refine ⟨Or.inr (Or.inr (Or.inr ?_)), ?_⟩ <;>
      simp only [SSHMounter.onProcessError, SSHMounter.setState, emit, Step.hostAfter] <;>
      split <;> simp_all
  | setStateIdle =>
    simp only [Step.apply, pure, Except.pure] at h
    injection h with h
    subst h
    refine ⟨Or.inr (Or.inl ?_), ?_⟩ <;>
      simp only [SSHMounter.setState, emit, Step.hostAfter] <;> split <;> simp_all

/-- No sequence of steps that starts in a state other than `Mounted` reaches `Mounted`. -/
theorem runSteps_state (steps : List Step) :
    ∀ (m m' : SSHMounter), m.state_ ≠ .Mounted → runSteps steps m = .ok m' →
      m'.state_ ≠ .Mounted := by
  induction steps with
  | nil =>
    intro m m' hm h
    simp only [runSteps, pure, Except.pure] at h
    injection h with h
    subst h
    exact hm
  | cons s ss ih =>
    intro m m' hm h
    simp only [runSteps, bind, Except.bind] at h
    cases hs : s.apply m with
    | error e => rw [hs] at h; cases h
    | ok m1 =>
      rw [hs] at h
      refine ih m1 m' ?_ h
      rcases (Step.apply_result s m m1 hs).1 with h1 | h1 | h1 | h1 <;> rw [h1]
      · exact hm
      all_goals intro hc; cases hc

/-! ## The claims on retry, unmount and the return value -/

/-- C12: with the pointer `process_` in order, `removeHostKey` starts exactly one helper,
`ssh-keygen -R <host of currentHost_>`, waits until that process is not running any more,
and then calls `mount(currentHost_)` in a state whose `state_` and `currentHost_` are the
old ones; its result is the result of that `mount`, whose effects all come after the start
of the key-removal helper.  `currentHost_` is the argument of the last `mount` that was not
rejected as busy: no other step changes it. -/
theorem removeHostKey_chain (fs : FileSystem) (keyRun mountRun : HelperRun) (m : SSHMounter)
    (hp : procOk m) :
    (∃ p1 b m' new,
      p1.id = m.nextId ∧ p1.deleted = false ∧ p1.state = .NotRunning ∧
      p1.program = "ssh-keygen" ∧ p1.arguments = ["-R", m.currentHost_.host] ∧
      SSHMounter.mount fs mountRun m.currentHost_
        { m with
          process_ := some p1, nextId := m.nextId + 1,
          trace := m.trace ++ releaseEffects m ++
            [Effect.create m.nextId,
             Effect.start m.nextId "ssh-keygen" ["-R", m.currentHost_.host]] } =
        .ok (b, m') ∧
      SSHMounter.removeHostKey fs keyRun mountRun m = .ok m' ∧
      m'.trace = m.trace ++ releaseEffects m ++
        [Effect.create m.nextId,
         Effect.start m.nextId "ssh-keygen" ["-R", m.currentHost_.host]] ++ new ∧
      m'.currentHost_ = m.currentHost_) ∧
    (∀ (s : Step) (m0 m1 : SSHMounter), s.apply m0 = .ok m1 →
      m1.currentHost_ = s.hostAfter m0) := by
  refine ⟨?_, fun s m0 m1 h => (Step.apply_result s m0 m1 h).2⟩
  obtain ⟨p1, h1, h2, h3, h4, h5, he⟩ := removeHostKey_key_phase fs keyRun mountRun m hp
  have hok : procOk
      { m with
        process_ := some p1, nextId := m.nextId + 1,
        trace := m.trace ++ releaseEffects m ++
          [Effect.create m.nextId,
           Effect.start m.nextId "ssh-keygen" ["-R", m.currentHost_.host]] } := by
    intro q hq
    injection hq with hq
    subst hq
    exact h2
  obtain ⟨b, m', new, hm, ht, -⟩ := mount_total fs mountRun m.currentHost_ _ hok
  refine ⟨p1, b, m', new, h1, h2, h3, h4, h5, hm, ?_, ht, ?_⟩
  · rw [he, hm]
    rfl
  · rcases mount_result _ _ _ _ _ _ hm with ⟨-, -, h7⟩ | ⟨-, h7, -⟩
    · exact h7
    · exact h7

/-- Worked instance of C12: the host key is removed after a failed mount (state `Error`);
the chained mount is accepted and starts `sshfs` after `ssh-keygen`. -/
theorem removeHostKey_chain_witness :
    procOk Example.mountFailed ∧
    (SSHMounter.removeHostKey Example.writableFs {} {} Example.mountFailed).map
        (fun r => (r.state_, r.currentHost_, r.trace.filter Effect.isStart)) =
      .ok (MountState.Idle, Example.host,
        [Effect.start 1 "ssh-keygen" ["-R", "h"],
         Effect.start 2 "sshfs" (SSHMounter.mountArgs Example.host)]) ∧
    ∃ p1 b m' new,
      p1.id = Example.mountFailed.nextId ∧ p1.deleted = false ∧ p1.state = .NotRunning ∧
      p1.program = "ssh-keygen" ∧ p1.arguments = ["-R", Example.mountFailed.currentHost_.host] ∧
      SSHMounter.mount Example.writableFs {} Example.mountFailed.currentHost_
        { Example.mountFailed with
          process_ := some p1, nextId := Example.mountFailed.nextId + 1,
          trace := Example.mountFailed.trace ++ releaseEffects Example.mountFailed ++
            [Effect.create Example.mountFailed.nextId,
             Effect.start Example.mountFailed.nextId "ssh-keygen"
               ["-R", Example.mountFailed.currentHost_.host]] } =
        .ok (b, m') ∧
      SSHMounter.removeHostKey Example.writableFs {} {} Example.mountFailed = .ok m' ∧
      m'.trace = Example.mountFailed.trace ++ releaseEffects Example.mountFailed ++
        [Effect.create Example.mountFailed.nextId,
         Effect.start Example.mountFailed.nextId "ssh-keygen"
           ["-R", Example.mountFailed.currentHost_.host]] ++ new ∧
      m'.currentHost_ = Example.mountFailed.currentHost_ :=
  ⟨fun _ h => by cases h; rfl, by rfl,
    (removeHostKey_chain Example.writableFs {} {} Example.mountFailed
      (fun _ h => by cases h; rfl)).1⟩

/-- C13, at the failing input: the helper of a running mount has printed the host-key
banner, `hostKeyMismatch` has been emitted, and `removeHostKey` is called while the state is
`Mounting`.  The key-removal helper is started, but the chained `mount` is rejected: the
only signal that follows is `mountError("Already busy with another operation")`, no `sshfs`
helper is started, and the state stays `Mounting` with the old helper destroyed. -/
theorem removeHostKey_retry_rejected_while_mounting :
    ((SSHMounter.onProcessOutput Example.bannerSeen).bind
        (SSHMounter.removeHostKey Example.writableFs {} {})).map
        (fun r => (r.state_, r.trace)) =
      .ok (MountState.Mounting,
        [Effect.emit .passwordRequired, Effect.emit .hostKeyMismatch, Effect.destroy 0,
         Effect.create 1, Effect.start 1 "ssh-keygen" ["-R", "h"],
         Effect.emit (.mountError "Already busy with another operation")]) := by
  rfl

/-- In state `Mounting` the `mount` chained by `removeHostKey` is always rejected as busy:
after the start of the key-removal helper the only effect is the busy error, and the state
stays `Mounting`. -/
theorem removeHostKey_while_mounting (fs : FileSystem) (keyRun mountRun : HelperRun)
    (m : SSHMounter) (hp : procOk m) (hs : m.state_ = .Mounting) :
    ∃ m', SSHMounter.removeHostKey fs keyRun mountRun m = .ok m' ∧ m'.state_ = .Mounting ∧
      m'.trace = m.trace ++ releaseEffects m ++
        [Effect.create m.nextId,
         Effect.start m.nextId "ssh-keygen" ["-R", m.currentHost_.host],
         Effect.emit (.mountError "Already busy with another operation")] := by
  obtain ⟨p1, -, -, -, -, -, he⟩ := removeHostKey_key_phase fs keyRun mountRun m hp
  have hm : SSHMounter.mount fs mountRun m.currentHost_
      { m with
        process_ := some p1, nextId := m.nextId + 1,
        trace := m.trace ++ releaseEffects m ++
          [Effect.create m.nextId,
           Effect.start m.nextId "ssh-keygen" ["-R", m.currentHost_.host]] } =
      .ok (false, emit (.mountError "Already busy with another operation")
        { m with
          process_ := some p1, nextId := m.nextId + 1,
          trace := m.trace ++ releaseEffects m ++
            [Effect.create m.nextId,
             Effect.start m.nextId "ssh-keygen" ["-R", m.currentHost_.host]] }) := by
    simp [SSHMounter.mount, hs, pure, Except.pure]
  rw [he, hm]
  exact ⟨_, rfl, hs, by simp [emit]⟩

/-- C14: `unmount(p)` called in state `Idle` or `Error` (pointer `process_` in order) is
accepted: the state becomes `Unmounting`; the effects are `stateChanged(Unmounting)`, the
progress message `Unmounting p...`, the release of the old process, and the creation and
start of exactly one process, `umount p` when the platform flag is set and
`fusermount -u p` when it is not.  Nothing but the flag enters the choice. -/
theorem unmount_spawns_helper (isMac : Bool) (localPath : String) (m : SSHMounter)
    (hs : m.state_ = .Idle ∨ m.state_ = .Error) (hp : procOk m) :
    SSHMounter.unmount isMac localPath m = .ok
      { process_ := some
          { id := m.nextId, program := if isMac then "umount" else "fusermount",
            arguments := if isMac then [localPath] else ["-u", localPath],
            state := .Starting },
        state_ := .Unmounting,
        currentHost_ := m.currentHost_,
        nextId := m.nextId + 1,
        trace := m.trace ++
          [Effect.emit (.stateChanged .Unmounting),
           Effect.emit (.progressMessage ("Unmounting " ++ localPath ++ "..."))] ++
          releaseEffects m ++
          [Effect.create m.nextId,
           Effect.start m.nextId (if isMac then "umount" else "fusermount")
             (if isMac then [localPath] else ["-u", localPath])] } := by
  apply unmount_accepted isMac localPath m ?_ hp
  rcases hs with hs | hs <;> simp [hs]

/-- Worked instance of C14: an unmount from the initial state on a build without the
macOS flag. -/
theorem unmount_spawns_helper_witness :
    (SSHMounter.init.state_ = .Idle ∨ SSHMounter.init.state_ = .Error) ∧
    procOk SSHMounter.init ∧
    SSHMounter.unmount false "/mnt/x" SSHMounter.init = .ok
      { process_ := some
          { id := 0, program := "fusermount", arguments := ["-u", "/mnt/x"],
            state := .Starting },
        state_ := .Unmounting,
        currentHost_ := SSHMounter.init.currentHost_,
        nextId := 1,
        trace :=
          [Effect.emit (.stateChanged .Unmounting),
           Effect.emit (.progressMessage "Unmounting /mnt/x..."),
           Effect.create 0, Effect.start 0 "fusermount" ["-u", "/mnt/x"]] } :=
  ⟨Or.inl rfl, (fun _ h => by cases h),
    unmount_spawns_helper false "/mnt/x" SSHMounter.init (Or.inl rfl) (fun _ h => by cases h)⟩

/-- C15: `onProcessFinished(exitCode, status)` on a live process.  In state `Unmounting`:
with exit code 0 and normal exit the state becomes `Idle` and the effects are
`stateChanged(Idle)`, `unmountSuccess`; otherwise the state becomes `Error` and the effects
are `stateChanged(Error)` and one `mountError` whose text is the unread standard error when
that is not empty and `Unmount failed` when it is.  In a state other than `Mounting` and
`Unmounting` nothing is emitted and `state_` stays; only the unread output is taken. -/
theorem unmount_finished (exitCode : Int) (status : ExitStatus) (m : SSHMounter)
    (p : QProcess) (hq : m.process_ = some p) (hd : p.deleted = false) :
    (m.state_ = .Unmounting → exitCode = 0 ∧ status = .NormalExit →
      SSHMounter.onProcessFinished exitCode status m = .ok
        { m with
          process_ := some { p with stdoutBuf := "", stderrBuf := "" },
          state_ := .Idle,
          trace := m.trace ++
            [Effect.emit (.stateChanged .Idle), Effect.emit .unmountSuccess] }) ∧
    (m.state_ = .Unmounting → ¬ (exitCode = 0 ∧ status = .NormalExit) →
      SSHMounter.onProcessFinished exitCode status m = .ok
        { m with
          process_ := some { p with stdoutBuf := "", stderrBuf := "" },
          state_ := .Error,
          trace := m.trace ++
            [Effect.emit (.stateChanged .Error),
             Effect.emit (.mountError
               (if QString.isEmpty p.stderrBuf then "Unmount failed" else p.stderrBuf))] }) ∧
    (m.state_ ≠ .Mounting → m.state_ ≠ .Unmounting →
      SSHMounter.onProcessFinished exitCode status m = .ok
        { m with process_ := some { p with stdoutBuf := "", stderrBuf := "" } }) := by
  rw [onProcessFinished_live exitCode status hq hd]
  refine ⟨?_, ?_, ?_⟩
  · intro hs hok
    simp [hs, hok, SSHMounter.setState, emit]
  · intro hs hok
    simp [hs, hok, SSHMounter.setState, emit]
  · intro h1 h2
    simp [h1, h2]

/-- Worked instance of C15 (scenario D): an unmount whose helper writes a diagnostic to
its standard error and exits with code 1. -/
theorem unmount_finished_witness :
    Example.unmounting.process_ = some Example.unmountProcess ∧
    Example.unmountProcess.deleted = false ∧
    Example.unmounting.state_ = .Unmounting ∧
    ¬ ((1 : Int) = 0 ∧ ExitStatus.NormalExit = .NormalExit) ∧
    SSHMounter.onProcessFinished 1 .NormalExit Example.unmounting = .ok
      { Example.unmounting with
        process_ := some { Example.unmountProcess with stdoutBuf := "", stderrBuf := "" },
        state_ := .Error,
        trace := Example.unmounting.trace ++
          [Effect.emit (.stateChanged .Error),
           Effect.emit (.mountError "fusermount: entry for /mnt/x not found")] } :=
  ⟨rfl, rfl, rfl, by decide,
    (unmount_finished 1 .NormalExit Example.unmounting Example.unmountProcess rfl rfl).2.1 rfl
      (by decide)⟩

/-- C16, as stated, fails: it is not true that every accepted `mount` returns true
whatever the helper reports.  A helper run that ends with exit code 1 makes `mount` return
false although the call was accepted and `sshfs` was started. -/
theorem mount_return_not_acceptance :
    (SSHMounter.mount Example.writableFs { exitCode := 1 } Example.host SSHMounter.init).map
        (fun r => (r.1, r.2.trace.filter Effect.isStart)) =
      .ok (false, [Effect.start 0 "sshfs" (SSHMounter.mountArgs Example.host)]) ∧
    ¬ ∀ (fs : FileSystem) (run : HelperRun) (host : SSHHost) (m : SSHMounter),
        (m.state_ = .Idle ∨ m.state_ = .Error) →
        SSHMounter.checkWritePermission fs host.localPath = "" → procOk m →
        ∃ m', SSHMounter.mount fs run host m = .ok (true, m') := by
  refine ⟨by rfl, ?_⟩
  intro h
  obtain ⟨m', hm⟩ := h Example.writableFs { exitCode := 1 } Example.host SSHMounter.init
    (Or.inl rfl) rfl (fun _ h => by cases h)
  rw [mount_accepted Example.writableFs { exitCode := 1 } Example.host SSHMounter.init
    (Or.inl rfl) rfl (fun _ h => by cases h)] at hm
  injection hm with hm
  injection hm with hm _
  revert hm
  decide

/-- C16, amended: the boolean returned by `mount` is the final outcome.  With the pointer
`process_` in order `mount` returns, and it returns true exactly when the call is made in
state `Idle` or `Error`, the local path is valid, and the helper run is reported with exit
code 0 and normal exit; a rejected call and a failed helper run both give false. -/
theorem mount_return_is_outcome (fs : FileSystem) (run : HelperRun) (host : SSHHost)
    (m : SSHMounter) (hp : procOk m) :
    ∃ b m', SSHMounter.mount fs run host m = .ok (b, m') ∧
      (b = true ↔ ((m.state_ = .Idle ∨ m.state_ = .Error) ∧
        SSHMounter.checkWritePermission fs host.localPath = "" ∧
        run.exitCode = 0 ∧ run.exitStatus = .NormalExit)) := by
  by_cases hb : m.state_ ≠ .Idle ∧ m.state_ ≠ .Error
  · refine ⟨false, emit (.mountError "Already busy with another operation") m, ?_, ?_⟩
    · simp [SSHMounter.mount, hb, pure, Except.pure]
    · simp [hb.1, hb.2]
  · have hs : m.state_ = .Idle ∨ m.state_ = .Error := by
      by_cases h1 : m.state_ = .Idle
      · exact Or.inl h1
      · by_cases h2 : m.state_ = .Error
        · exact Or.inr h2
        · exact absurd ⟨h1, h2⟩ hb
    by_cases hv : SSHMounter.checkWritePermission fs host.localPath = ""
    · refine ⟨_, _, mount_accepted fs run host m hs hv hp, ?_⟩
      simp [hs, hv]
    · have he : QString.isEmpty (SSHMounter.checkWritePermission fs host.localPath) = false :=
        QString.isEmpty_eq_false hv
      refine ⟨false,
        { m with
          state_ := .Error, currentHost_ := host,
          trace := m.trace ++ [Effect.emit (.stateChanged .Mounting),
            Effect.emit (.stateChanged .Error),
            Effect.emit (.mountError (SSHMounter.checkWritePermission fs host.localPath))] },
        ?_, ?_⟩
      · rcases hs with hs | hs <;>
          simp [SSHMounter.mount, hs, he, SSHMounter.setState, emit, pure, Except.pure]
      · simp [hv]

/-- Worked instance of amended C16: an accepted mount whose helper exits with code 1. -/
theorem mount_return_is_outcome_witness :
    procOk SSHMounter.init ∧
    ∃ b m', SSHMounter.mount Example.writableFs { exitCode := 1 } Example.host
        SSHMounter.init = .ok (b, m') ∧
      (b = true ↔ ((SSHMounter.init.state_ = .Idle ∨ SSHMounter.init.state_ = .Error) ∧
        SSHMounter.checkWritePermission Example.writableFs Example.host.localPath = "" ∧
        (1 : Int) = 0 ∧ ExitStatus.NormalExit = ExitStatus.NormalExit)) :=
  ⟨(fun _ h => by cases h),
    mount_return_is_outcome Example.writableFs { exitCode := 1 } Example.host SSHMounter.init
      (fun _ h => by cases h)⟩


/-! ## The credential slot -/

theorem processChunksWithSlot_nil (slot : SSHMounter → Except Fault SSHMounter)
    (m : SSHMounter) : SSHMounter.processChunksWithSlot slot [] m = .ok m := rfl

/-- A `supplyPassword` on a process that is not running does nothing. -/
theorem supplyPassword_idle (text : String) (m : SSHMounter)
    (h : m.process_ = none ∨
      ∃ p, m.process_ = some p ∧ p.deleted = false ∧ p.state ≠ .Running) :
    SSHMounter.supplyPassword text m = .ok m := by
  rcases h with h | ⟨p, hq, hd, hr⟩
  · simp [SSHMounter.supplyPassword, h, pure, Except.pure]
  · simp [SSHMounter.supplyPassword, hq, hd, hr, deref, bind, Except.bind, pure, Except.pure]

/-- The state in which an accepted `mountWithSlot` starts the helper when the slot is
`supplyPassword(text)`: the effects so far are those of `mount` without any slot, and the
fresh process has received no input. -/
theorem mountWithSlot_supply_accepted (text : String) (fs : FileSystem) (run : HelperRun)
    (host : SSHHost) (m : SSHMounter) (hs : m.state_ = .Idle ∨ m.state_ = .Error)
    (hv : SSHMounter.checkWritePermission fs host.localPath = "") (hp : procOk m) :
    SSHMounter.mountWithSlot (SSHMounter.supplyPassword text) fs run host m =
      (do
        let m ← SSHMounter.loopExecWithSlot (SSHMounter.supplyPassword text) run
          { process_ := some
              { id := m.nextId, channelMode := .MergedChannels, program := "sshfs",
                arguments := SSHMounter.mountArgs host, state := .Starting },
            state_ := .Mounting, currentHost_ := host, nextId := m.nextId + 1,
            trace := m.trace ++ mountPrefix m host }
        let p ← deref m
        if p.exitCode = 0 ∧ p.exitStatus = .NormalExit then
          pure (true, emit .mountSuccess (SSHMounter.setState .Idle m))
        else do
          let m := SSHMounter.setState .Error m
          let (errors, m) ← readAllStandardError m
          let msg :=
            if QString.isEmpty errors then "Mount failed with unknown error" else errors
          let msg :=
            if p.error = .FailedToStart then
              "Failed to start sshfs. Is it installed and in your PATH?"
            else msg
          pure (false, emit (.mountError msg) m)) := by
  obtain ⟨proc, st, ch, nid, tr⟩ := m
  simp only at hs
  have hst : ¬ (st ≠ .Idle ∧ st ≠ .Error) := by rcases hs with h | h <;> simp [h]
  have hmt : st ≠ .Mounting := by rcases hs with h | h <;> simp [h]
  cases hk : host.usePublicKey <;> cases proc with
  | none =>
    simp [SSHMounter.mountWithSlot, hst, hmt, hv, SSHMounter.setState, emit,
      QString.isEmpty_empty, deleteProcess, newProcess, setProcessChannelMode, start, deref,
      store, SSHMounter.emitPasswordRequired, SSHMounter.supplyPassword, bind, Except.bind,
      pure, Except.pure, hk, mountPrefix, releaseEffects]
  | some p =>
    have hd : p.deleted = false := hp p rfl
    simp [SSHMounter.mountWithSlot, hst, hmt, hv, SSHMounter.setState, emit,
      QString.isEmpty_empty, deleteProcess, newProcess, setProcessChannelMode, start, deref,
      store, SSHMounter.emitPasswordRequired, SSHMounter.supplyPassword, bind, Except.bind,
      pure, Except.pure, hk, hd, mountPrefix, releaseEffects]

theorem Extends.trans {a b c : SSHMounter} (h1 : Extends a b) (h2 : Extends b c) :
    Extends a c := by
  obtain ⟨s1, c1, n1, ⟨t1, ht1⟩, _⟩ := h1
  obtain ⟨s2, c2, n2, ⟨t2, ht2⟩, hp2⟩ := h2
  exact ⟨s2.trans s1, c2.trans c1, n2.trans n1, ⟨t1 ++ t2, by rw [ht2, ht1, List.append_assoc]⟩,
    hp2⟩

theorem onProcessOutputWithSlot_supply_live (text : String) (m : SSHMounter) (p : QProcess)
    (hq : m.process_ = some p) (hd : p.deleted = false) :
    ∃ m', SSHMounter.onProcessOutputWithSlot (SSHMounter.supplyPassword text) m = .ok m' ∧
      Extends m m' := by
  by_cases h1 : SSHMounter.passwordPrompt p.stdoutBuf p.stderrBuf = true <;>
  by_cases h2 : (QString.contains p.stdoutBuf SSHMounter.hostKeyBanner ||
      QString.contains p.stderrBuf SSHMounter.hostKeyBanner) = true <;>
  by_cases hr : p.state = .Running <;>
  cases hc : p.writeChannelClosed <;>
  simp [SSHMounter.onProcessOutputWithSlot, SSHMounter.emitPasswordRequired,
    SSHMounter.supplyPassword, readAllStandardOutput, readAllStandardError, deref, write,
    closeWriteChannel, hq, hd, hr, hc, store, emit, bind, Except.bind, pure, Except.pure,
    h1, h2, Extends]

theorem deliver_live (out err : String) (m : SSHMounter) (p : QProcess)
    (hq : m.process_ = some p) (hd : p.deleted = false) :
    ∃ m', deliver out err m = .ok m' ∧ Extends m m' := by
  cases hm : p.channelMode <;>
  simp [deliver, deref, hq, hd, hm, store, bind, Except.bind, pure, Except.pure, Extends]

theorem processChunksWithSlot_supply_live (text : String) (chunks : List (String × String)) :
    ∀ (m : SSHMounter) (p : QProcess), m.process_ = some p → p.deleted = false →
      ∃ m', SSHMounter.processChunksWithSlot (SSHMounter.supplyPassword text) chunks m =
        .ok m' ∧ Extends m m' := by
  induction chunks with
  | nil =>
    intro m p hq hd
    exact ⟨m, rfl, rfl, rfl, rfl, ⟨[], by simp⟩, p, hq, hd⟩
  | cons c cs ih =>
    intro m p hq hd
    obtain ⟨m1, e1, x1⟩ := deliver_live c.1 c.2 m p hq hd
    obtain ⟨p1, hq1, hd1⟩ := x1.2.2.2.2
    obtain ⟨m2, e2, x2⟩ := onProcessOutputWithSlot_supply_live text m1 p1 hq1 hd1
    obtain ⟨p2, hq2, hd2⟩ := x2.2.2.2.2
    obtain ⟨m3, e3, x3⟩ := ih m2 p2 hq2 hd2
    refine ⟨m3, ?_, (x1.trans x2).trans x3⟩
    simp only [SSHMounter.processChunksWithSlot, e1, e2, bind, Except.bind]
    exact e3

theorem loopExecWithSlot_supply_live (text : String) (run : HelperRun) (m : SSHMounter)
    (p : QProcess) (hq : m.process_ = some p) (hd : p.deleted = false) :
    ∃ m' p', SSHMounter.loopExecWithSlot (SSHMounter.supplyPassword text) run m = .ok m' ∧
      Extends m m' ∧ m'.process_ = some p' ∧ p'.deleted = false ∧
      p'.exitCode = run.exitCode ∧ p'.exitStatus = run.exitStatus ∧ p'.error = run.error := by
  obtain ⟨m1, e1, x1⟩ := processChunksWithSlot_supply_live text run.chunks m p hq hd
  obtain ⟨p1, hq1, hd1⟩ := x1.2.2.2.2
  refine ⟨store
    { p1 with
      state := .NotRunning, exitCode := run.exitCode, exitStatus := run.exitStatus,
      error := run.error } m1, _, ?_, ?_, rfl, hd1, rfl, rfl, rfl⟩
  · simp only [SSHMounter.loopExecWithSlot, e1, bind, Except.bind]
    simp [finishRun, deref, hq1, hd1, bind, Except.bind, pure, Except.pure]
  · refine x1.trans ⟨rfl, rfl, rfl, ⟨[], by simp [store]⟩, _, rfl, hd1⟩

/-- When the helper writes nothing, the slot `supplyPassword(text)` runs once, before the
helper is started, and changes nothing: the mount proceeds as without a slot. -/
theorem mountWithSlot_supply_silent (text : String) (fs : FileSystem) (run : HelperRun)
    (host : SSHHost) (m : SSHMounter) (hs : m.state_ = .Idle ∨ m.state_ = .Error)
    (hv : SSHMounter.checkWritePermission fs host.localPath = "") (hp : procOk m)
    (hc : run.chunks = []) :
    SSHMounter.mountWithSlot (SSHMounter.supplyPassword text) fs run host m =
      SSHMounter.mount fs run host m := by
  rw [mountWithSlot_supply_accepted text fs run host m hs hv hp,
    mount_accepted fs run host m hs hv hp]
  by_cases hok : run.exitCode = 0 ∧ run.exitStatus = .NormalExit <;>
    simp [SSHMounter.loopExecWithSlot, hc, processChunksWithSlot_nil, finishRun, deref, store,
      readAllStandardError, SSHMounter.setState, emit, bind, Except.bind, pure, Except.pure,
      hok, mountSuffix, mountProcess, mountFailureText, loopSignals, QString.isEmpty_empty]

theorem mountWithSlot_supply_total (text : String) (fs : FileSystem) (run : HelperRun)
    (host : SSHHost) (m : SSHMounter) (hs : m.state_ = .Idle ∨ m.state_ = .Error)
    (hv : SSHMounter.checkWritePermission fs host.localPath = "") (hp : procOk m) :
    ∃ b m' post, SSHMounter.mountWithSlot (SSHMounter.supplyPassword text) fs run host m =
        .ok (b, m') ∧ m'.trace = m.trace ++ mountPrefix m host ++ post := by
  rw [mountWithSlot_supply_accepted text fs run host m hs hv hp]
  obtain ⟨m2, p2, e2, x2, hq2, hd2, -, -, -⟩ := loopExecWithSlot_supply_live text run
    { process_ := some
        { id := m.nextId, channelMode := .MergedChannels, program := "sshfs",
          arguments := SSHMounter.mountArgs host, state := .Starting },
      state_ := .Mounting, currentHost_ := host, nextId := m.nextId + 1,
      trace := m.trace ++ mountPrefix m host } _ rfl rfl
  obtain ⟨hst, -, -, ⟨new, ht⟩, -⟩ := x2
  obtain ⟨proc2, st2, ch2, n2, tr2⟩ := m2
  simp only at hq2 hst ht
  subst hq2 hst ht
  simp only [e2, bind, Except.bind]
  have hder : deref
      { process_ := some p2, state_ := MountState.Mounting, currentHost_ := ch2, nextId := n2,
        trace := m.trace ++ mountPrefix m host ++ new } = .ok p2 := by
    simp [deref, hd2]
  rw [hder]
  by_cases hok : p2.exitCode = 0 ∧ p2.exitStatus = .NormalExit
  · simp only [hok, and_self, if_true, pure, Except.pure]
    exact ⟨true, _, new ++ [Effect.emit (.stateChanged .Idle), Effect.emit .mountSuccess],
      rfl, by simp [SSHMounter.setState, emit, List.append_assoc]⟩
  · have hre : readAllStandardError (SSHMounter.setState .Error
        { process_ := some p2, state_ := MountState.Mounting, currentHost_ := ch2,
          nextId := n2, trace := m.trace ++ mountPrefix m host ++ new }) =
        .ok (p2.stderrBuf, store { p2 with stderrBuf := "" } (SSHMounter.setState .Error
          { process_ := some p2, state_ := MountState.Mounting, currentHost_ := ch2,
            nextId := n2, trace := m.trace ++ mountPrefix m host ++ new })) := by
      simp [readAllStandardError, deref, hd2, SSHMounter.setState, emit, store, bind,
        Except.bind, pure, Except.pure]
    simp only [hok, if_false, hre, pure, Except.pure]
    exact ⟨false, _, new ++ [Effect.emit (.stateChanged .Error), Effect.emit (.mountError
        (if p2.error = .FailedToStart then
          "Failed to start sshfs. Is it installed and in your PATH?"
        else if QString.isEmpty p2.stderrBuf then "Mount failed with unknown error"
        else p2.stderrBuf))], rfl,
      by simp [SSHMounter.setState, emit, store, List.append_assoc]⟩

/-- C17, as stated, fails: for a password-mode mount from `Idle` with a writable local
path, the credential supplied by the slot of `passwordRequired` and a helper that writes
nothing and exits with code 0, the signals are five, not four: the progress message
`Connecting to h...` is emitted between `stateChanged(Mounting)` and `passwordRequired`. -/
theorem mount_signals_include_progress :
    (SSHMounter.mountWithSlot (SSHMounter.supplyPassword "pw") Example.writableFs {}
        Example.host SSHMounter.init).map (fun r => signalsOf r.2.trace) =
      .ok [Signal.stateChanged .Mounting, Signal.progressMessage "Connecting to h...",
        Signal.passwordRequired, Signal.stateChanged .Idle, Signal.mountSuccess] ∧
    (SSHMounter.mountWithSlot (SSHMounter.supplyPassword "pw") Example.writableFs {}
        Example.host SSHMounter.init).map (fun r => signalsOf r.2.trace) ≠
      .ok [Signal.stateChanged .Mounting, Signal.passwordRequired,
        Signal.stateChanged .Idle, Signal.mountSuccess] := by
  have e : (SSHMounter.mountWithSlot (SSHMounter.supplyPassword "pw") Example.writableFs {}
      Example.host SSHMounter.init).map (fun r => signalsOf r.2.trace) =
      .ok [Signal.stateChanged .Mounting, Signal.progressMessage "Connecting to h...",
        Signal.passwordRequired, Signal.stateChanged .Idle, Signal.mountSuccess] := by rfl
  refine ⟨e, ?_⟩
  rw [e]
  intro h
  injection h with h
  revert h
  decide

/-- C17, amended: for a password-mode profile with a valid local path, `mount` started
from `Idle`, the credential supplied through `supplyPassword` by the slot of
`passwordRequired`, and a helper that writes nothing and is reported with exit code 0 and
normal exit, `mount` returns true and the signals emitted are exactly
`stateChanged(Mounting)`, `progressMessage("Connecting to <host>...")`, `passwordRequired`,
`stateChanged(Idle)`, `mountSuccess`, in this order. -/
theorem mount_signal_sequence (text : String) (fs : FileSystem) (run : HelperRun)
    (host : SSHHost) (m : SSHMounter) (hs : m.state_ = .Idle)
    (hv : SSHMounter.checkWritePermission fs host.localPath = "") (hp : procOk m)
    (hk : host.usePublicKey = false) (hc : run.chunks = [])
    (hok : run.exitCode = 0 ∧ run.exitStatus = .NormalExit) :
    ∃ m' new, SSHMounter.mountWithSlot (SSHMounter.supplyPassword text) fs run host m =
        .ok (true, m') ∧ m'.trace = m.trace ++ new ∧
      signalsOf new =
        [Signal.stateChanged .Mounting,
         Signal.progressMessage ("Connecting to " ++ host.host ++ "..."),
         Signal.passwordRequired, Signal.stateChanged .Idle, Signal.mountSuccess] := by
  rw [mountWithSlot_supply_silent text fs run host m (Or.inl hs) hv hp hc,
    mount_accepted fs run host m (Or.inl hs) hv hp]
  have hdec : decide (run.exitCode = 0 ∧ run.exitStatus = .NormalExit) = true := by
    simp [hok]
  rw [hdec]
  exact ⟨_, mountPrefix m host ++
    (loopSignals .MergedChannels run.chunks).map Effect.emit ++ mountSuffix run, rfl,
    by simp [List.append_assoc],
    by simp [mountPrefix, mountSuffix, hk, hc, hok, loopSignals]⟩

/-- Worked instance of amended C17: scenario A from the initial state. -/
theorem mount_signal_sequence_witness :
    SSHMounter.init.state_ = .Idle ∧
    SSHMounter.checkWritePermission Example.writableFs Example.host.localPath = "" ∧
    procOk SSHMounter.init ∧ Example.host.usePublicKey = false ∧
    ∃ m' new, SSHMounter.mountWithSlot (SSHMounter.supplyPassword "pw") Example.writableFs {}
        Example.host SSHMounter.init = .ok (true, m') ∧
      m'.trace = SSHMounter.init.trace ++ new ∧
      signalsOf new =
        [Signal.stateChanged .Mounting,
         Signal.progressMessage ("Connecting to " ++ Example.host.host ++ "..."),
         Signal.passwordRequired, Signal.stateChanged .Idle, Signal.mountSuccess] :=
  ⟨rfl, rfl, (fun _ h => by cases h), rfl,
    mount_signal_sequence "pw" Example.writableFs {} Example.host SSHMounter.init rfl rfl
      (fun _ h => by cases h) rfl rfl ⟨rfl, rfl⟩⟩

/-- C19: `supplyPassword(text)` on an orchestrator without a process, or with a live process
that is not in the `Running` state, returns the orchestrator as it is: nothing is written,
the input channel is not closed, nothing is emitted.  In an accepted password-mode mount
whose `passwordRequired` slot answers with `supplyPassword(text)`, as
`MainWindow::onPasswordRequired` does for a non-empty text, the effects up to the start of
the helper contain the signal but no write and no close of the input channel; when the
helper writes nothing, the process ends with empty input and an open input channel. -/
theorem supplyPassword_before_start (text : String) (fs : FileSystem) (run : HelperRun)
    (host : SSHHost) (m : SSHMounter) (hs : m.state_ = .Idle ∨ m.state_ = .Error)
    (hv : SSHMounter.checkWritePermission fs host.localPath = "") (hp : procOk m)
    (hk : host.usePublicKey = false) :
    (∀ m0 : SSHMounter,
      (m0.process_ = none ∨
        ∃ p, m0.process_ = some p ∧ p.deleted = false ∧ p.state ≠ .Running) →
      SSHMounter.supplyPassword text m0 = .ok m0) ∧
    (text ≠ "" → ∀ m0 : SSHMounter,
      MainWindow.onPasswordRequired true true text m0 = SSHMounter.supplyPassword text m0) ∧
    (∃ b m' post, SSHMounter.mountWithSlot (SSHMounter.supplyPassword text) fs run host m =
        .ok (b, m') ∧
      m'.trace = m.trace ++
        [Effect.emit (.stateChanged .Mounting),
         Effect.emit (.progressMessage ("Connecting to " ++ host.host ++ "..."))] ++
        releaseEffects m ++
        [Effect.create m.nextId, Effect.emit .passwordRequired,
         Effect.start m.nextId "sshfs" (SSHMounter.mountArgs host)] ++ post) ∧
    (run.chunks = [] →
      ∃ b m' q, SSHMounter.mountWithSlot (SSHMounter.supplyPassword text) fs run host m =
          .ok (b, m') ∧
        m'.process_ = some q ∧ q.stdinData = [] ∧ q.writeChannelClosed = false) := by
  refine ⟨fun m0 h0 => supplyPassword_idle text m0 h0, ?_, ?_, ?_⟩
  · intro ht m0
    simp [MainWindow.onPasswordRequired, QString.isEmpty_eq_false ht]
  · obtain ⟨b, m', post, h1, h2⟩ := mountWithSlot_supply_total text fs run host m hs hv hp
    refine ⟨b, m', post, h1, ?_⟩
    rw [h2]
    simp [mountPrefix, hk, List.append_assoc]
  · intro hc
    rw [mountWithSlot_supply_silent text fs run host m hs hv hp hc,
      mount_accepted fs run host m hs hv hp]
    exact ⟨_, _, _, rfl, rfl, rfl, rfl⟩

/-- Worked instance of C19: scenario A with the credential `pw` typed into the dialog. -/
theorem supplyPassword_before_start_witness :
    (SSHMounter.init.state_ = .Idle ∨ SSHMounter.init.state_ = .Error) ∧
    SSHMounter.checkWritePermission Example.writableFs Example.host.localPath = "" ∧
    procOk SSHMounter.init ∧ Example.host.usePublicKey = false ∧
    ∃ b m' q, SSHMounter.mountWithSlot (SSHMounter.supplyPassword "pw") Example.writableFs {}
        Example.host SSHMounter.init = .ok (b, m') ∧
      m'.process_ = some q ∧ q.stdinData = [] ∧ q.writeChannelClosed = false :=
  ⟨Or.inl rfl, rfl, (fun _ h => by cases h), rfl,
    (supplyPassword_before_start "pw" Example.writableFs {} Example.host SSHMounter.init
      (Or.inl rfl) rfl (fun _ h => by cases h) rfl).2.2.2 rfl⟩


/-! ## The state machine never reaches `Mounted` -/

theorem SSHMounter.setState_state (s : MountState) (m : SSHMounter) :
    (SSHMounter.setState s m).state_ = s := by
  unfold SSHMounter.setState
  split
  · rfl
  · rename_i h
    exact not_not.mp h

theorem readAllStandardError_state (m : SSHMounter) (r : String × SSHMounter)
    (h : readAllStandardError m = .ok r) : r.2.state_ = m.state_ := by
  cases hq : m.process_ with
  | none => simp [readAllStandardError, deref, hq, bind, Except.bind] at h
  | some p =>
    cases hd : p.deleted with
    | true => simp [readAllStandardError, deref, hq, hd, bind, Except.bind] at h
    | false =>
      simp [readAllStandardError, deref, hq, hd, bind, Except.bind, pure, Except.pure,
        store] at h
      subst h
      rfl

/-- Whatever the slot of `passwordRequired` does, a `mount` that returns leaves `state_` as
it was (rejected as busy) or in `Idle` or `Error`. -/
theorem mountWithSlot_state (slot : SSHMounter → Except Fault SSHMounter) (fs : FileSystem)
    (run : HelperRun) (host : SSHHost) (m m' : SSHMounter) (b : Bool)
    (h : SSHMounter.mountWithSlot slot fs run host m = .ok (b, m')) :
    m'.state_ = m.state_ ∨ m'.state_ = .Idle ∨ m'.state_ = .Error := by
  unfold SSHMounter.mountWithSlot at h
  simp only [bind, Except.bind, pure, Except.pure] at h
  repeat' split at h
  all_goals first
    | (simp only [Except.ok.injEq, Prod.mk.injEq] at h
       obtain ⟨-, rfl⟩ := h
       first
         | exact Or.inl rfl
         | exact Or.inr (Or.inl (SSHMounter.setState_state _ _))
         | exact Or.inr (Or.inr (SSHMounter.setState_state _ _))
         | (right; right
            have hst := readAllStandardError_state _ _ (by assumption)
            rw [SSHMounter.setState_state] at hst
            exact hst))
    | cases h

/-- C18: every state reached from the initial state by a finite sequence of steps (calls
of `mount`, `unmount`, `removeHostKey`, `supplyPassword`, `noPassword`, data arriving from
the helper, the callbacks `onProcessOutput`, `onProcessFinished`, `onProcessError` with any
arguments, and `setState(Idle)` by the window) has `state_` among `Idle`, `Mounting`,
`Unmounting`, `Error`, never `Mounted`; an accepted mount whose helper run is reported with
exit code 0 and normal exit ends in `Idle`; and a `mount` during which the slot of
`passwordRequired` runs does not reach `Mounted` either, whatever the slot does. -/
theorem state_never_mounted (steps : List Step) (m' : SSHMounter)
    (h : runSteps steps SSHMounter.init = .ok m') :
    (m'.state_ = .Idle ∨ m'.state_ = .Mounting ∨ m'.state_ = .Unmounting ∨
      m'.state_ = .Error) ∧
    m'.state_ ≠ .Mounted ∧
    (∀ (fs : FileSystem) (run : HelperRun) (host : SSHHost) (m : SSHMounter),
      (m.state_ = .Idle ∨ m.state_ = .Error) →
      SSHMounter.checkWritePermission fs host.localPath = "" → procOk m →
      run.exitCode = 0 ∧ run.exitStatus = .NormalExit →
      ∃ m1, SSHMounter.mount fs run host m = .ok (true, m1) ∧ m1.state_ = .Idle) ∧
    (∀ (slot : SSHMounter → Except Fault SSHMounter) (fs : FileSystem) (run : HelperRun)
      (host : SSHHost) (m m1 : SSHMounter) (b : Bool), m.state_ ≠ .Mounted →
      SSHMounter.mountWithSlot slot fs run host m = .ok (b, m1) → m1.state_ ≠ .Mounted) := by
  have hne : m'.state_ ≠ .Mounted :=
    runSteps_state steps SSHMounter.init m' (by decide) h
  refine ⟨?_, hne, ?_, ?_⟩
  · cases hs : m'.state_ with
    | Idle => exact Or.inl rfl
    | Mounting => exact Or.inr (Or.inl rfl)
    | Mounted => exact absurd hs hne
    | Unmounting => exact Or.inr (Or.inr (Or.inl rfl))
    | Error => exact Or.inr (Or.inr (Or.inr rfl))
  · intro fs run host m hs hv hp hok
    rw [mount_accepted fs run host m hs hv hp]
    have hdec : decide (run.exitCode = 0 ∧ run.exitStatus = .NormalExit) = true := by
      simp [hok]
    rw [hdec]
    exact ⟨_, rfl, by simp [hok]⟩
  · intro slot fs run host m m1 b hm hr
    rcases mountWithSlot_state slot fs run host m m1 b hr with h1 | h1 | h1 <;> rw [h1]
    · exact hm
    all_goals intro hc; cases hc

/-- Worked instance of C18: a session of five steps that ends in `Idle`. -/
theorem state_never_mounted_witness :
    runSteps Example.session SSHMounter.init = .ok Example.sessionEnd ∧
    (Example.sessionEnd.state_ = .Idle ∨ Example.sessionEnd.state_ = .Mounting ∨
      Example.sessionEnd.state_ = .Unmounting ∨ Example.sessionEnd.state_ = .Error) ∧
    Example.sessionEnd.state_ ≠ .Mounted :=
  ⟨by rfl,
    (state_never_mounted Example.session Example.sessionEnd (by rfl)).1,
    (state_never_mounted Example.session Example.sessionEnd (by rfl)).2.1⟩

/-! ## The host store -/

theorem SSHHost.fromJson_toJson (h : SSHHost)
    (hport : -2147483648 ≤ h.port ∧ h.port ≤ 2147483647) :
    SSHHost.fromJson (SSHHost.toJson h) = { h with usePublicKey := false } := by
  simp [SSHHost.fromJson, SSHHost.toJson, QJsonObject.insert, QJsonObject.value,
    List.lookup, QJsonValue.toString, QJsonValue.toInt, hport]

theorem SSHStore.loadDocument_saveDocument (hosts : List SSHHost)
    (hall : ∀ x ∈ hosts, -2147483648 ≤ x.port ∧ x.port ≤ 2147483647) :
    SSHStore.loadDocument (SSHStore.saveDocument hosts) =
      some (hosts.map fun x => { x with usePublicKey := false }) := by
  simp only [SSHStore.loadDocument, SSHStore.saveDocument, QJsonObject.insert,
    QJsonObject.value, List.filter_nil, List.lookup, beq_self_eq_true, QJsonValue.toArray,
    List.map_map, Option.some.injEq]
  apply List.map_congr_left
  intro x hx
  exact SSHHost.fromJson_toJson x (hall x hx)

/-- C20: for every host profile `h` (its `port` an `int`), `fromJson (toJson h)` has the
name, user, host, remote path, local path and port of `h` and `usePublicKey = false`;
`toJson` writes no key for the authentication mode (the keys are exactly the six others); the
round trip gives back `h` exactly when `h.usePublicKey = false`, and a public-key profile
comes back as a password-mode one.  The same holds for a list of profiles saved as a
document and loaded from it. -/
theorem toJson_fromJson_round_trip (h : SSHHost)
    (hport : -2147483648 ≤ h.port ∧ h.port ≤ 2147483647) (hosts : List SSHHost)
    (hall : ∀ x ∈ hosts, -2147483648 ≤ x.port ∧ x.port ≤ 2147483647) :
    (SSHHost.fromJson (SSHHost.toJson h)).name = h.name ∧
    (SSHHost.fromJson (SSHHost.toJson h)).user = h.user ∧
    (SSHHost.fromJson (SSHHost.toJson h)).host = h.host ∧
    (SSHHost.fromJson (SSHHost.toJson h)).remotePath = h.remotePath ∧
    (SSHHost.fromJson (SSHHost.toJson h)).localPath = h.localPath ∧
    (SSHHost.fromJson (SSHHost.toJson h)).port = h.port ∧
    (SSHHost.fromJson (SSHHost.toJson h)).usePublicKey = false ∧
    (SSHHost.toJson h).map Prod.fst =
      ["port", "localPath", "remotePath", "host", "user", "name"] ∧
    (∀ obj : QJsonObject, (SSHHost.fromJson obj).usePublicKey = false) ∧
    (SSHHost.fromJson (SSHHost.toJson h) = h ↔ h.usePublicKey = false) ∧
    (h.usePublicKey = true →
      SSHHost.fromJson (SSHHost.toJson h) = { h with usePublicKey := false } ∧
      SSHHost.fromJson (SSHHost.toJson h) ≠ h) ∧
    SSHStore.loadDocument (SSHStore.saveDocument hosts) =
      some (hosts.map fun x => { x with usePublicKey := false }) ∧
    (SSHStore.loadDocument (SSHStore.saveDocument hosts) = some hosts ↔
      ∀ x ∈ hosts, x.usePublicKey = false) := by
  have hrt := SSHHost.fromJson_toJson h hport
  have hdoc := SSHStore.loadDocument_saveDocument hosts hall
  have hiff : SSHHost.fromJson (SSHHost.toJson h) = h ↔ h.usePublicKey = false := by
    rw [hrt]
    constructor
    · intro he
      rw [← he]
    · intro he
      cases h
      simp_all
  refine ⟨by rw [hrt], by rw [hrt], by rw [hrt], by rw [hrt], by rw [hrt], by rw [hrt],
    by rw [hrt], ?_, ?_, hiff, ?_, hdoc, ?_⟩
  · simp [SSHHost.toJson, QJsonObject.insert]
  · intro obj
    simp [SSHHost.fromJson]
  · intro hk
    refine ⟨hrt, ?_⟩
    intro he
    rw [hiff.1 he] at hk
    exact Bool.noConfusion hk
  · rw [hdoc, Option.some.injEq]
    constructor
    · intro he x hx
      have hx' : x ∈ hosts.map fun x => { x with usePublicKey := false } := by
        rw [he]; exact hx
      obtain ⟨y, _, hy⟩ := List.mem_map.1 hx'
      rw [← hy]
    · intro hf
      conv_rhs => rw [← List.map_id hosts]
      apply List.map_congr_left
      intro x hx
      have := hf x hx
      cases x
      simp_all

/-- Worked instance of C20: a public-key profile comes back as the password-mode profile
with the same six other fields, alone and in a saved list. -/
theorem toJson_fromJson_round_trip_witness :
    SSHHost.fromJson (SSHHost.toJson Example.keyHost) = Example.host ∧
    Example.keyHost.usePublicKey = true ∧
    SSHHost.fromJson (SSHHost.toJson Example.keyHost) ≠ Example.keyHost ∧
    SSHStore.loadDocument (SSHStore.saveDocument Example.hosts) =
      some [Example.host, Example.host] :=
  have w := toJson_fromJson_round_trip Example.keyHost (by decide) Example.hosts (by decide)
  ⟨(w.2.2.2.2.2.2.2.2.2.2.1 rfl).1, rfl, (w.2.2.2.2.2.2.2.2.2.2.1 rfl).2,
    w.2.2.2.2.2.2.2.2.2.2.2.1⟩


/-! ## Classification and the chunking of the output -/

theorem QString.contains_mono (hay hay2 needle : String) (h : hay.data <:+: hay2.data)
    (hc : QString.contains hay needle = true) : QString.contains hay2 needle = true :=
  (QString.containsChars_iff _ _).mpr (((QString.containsChars_iff _ _).mp hc).trans h)

theorem QString.containsCI_mono (hay hay2 needle : String) (h : hay.data <:+: hay2.data)
    (hc : QString.containsCI hay needle = true) : QString.containsCI hay2 needle = true :=
  (QString.containsChars_iff _ _).mpr
    (((QString.containsChars_iff _ _).mp hc).trans (h.map QString.foldCase))

/-- A text pair that raises a signal raises it also when each of the two texts is replaced
by a text that contains it. -/
theorem chunkSignals_mono (output errors output2 errors2 : String)
    (ho : output.data <:+: output2.data) (he : errors.data <:+: errors2.data) (s : Signal)
    (hs : s ∈ chunkSignals output errors) : s ∈ chunkSignals output2 errors2 := by
  simp only [chunkSignals, passwordPrompt_eq, List.mem_append] at hs ⊢
  rcases hs with hs | hs
  · left
    split at hs
    · rename_i hc
      simp only [Bool.or_eq_true] at hc
      have hc2 : (QString.containsCI output2 "password" ||
          QString.containsCI errors2 "password") = true := by
        simp only [Bool.or_eq_true]
        rcases hc with hc | hc
        · exact Or.inl (QString.containsCI_mono _ _ _ ho hc)
        · exact Or.inr (QString.containsCI_mono _ _ _ he hc)
      rw [if_pos hc2]
      exact hs
    · cases hs
  · right
    split at hs
    · rename_i hc
      simp only [Bool.or_eq_true] at hc
      have hc2 : (QString.contains output2 SSHMounter.hostKeyBanner ||
          QString.contains errors2 SSHMounter.hostKeyBanner) = true := by
        simp only [Bool.or_eq_true]
        rcases hc with hc | hc
        · exact Or.inl (QString.contains_mono _ _ _ ho hc)
        · exact Or.inr (QString.contains_mono _ _ _ he hc)
      rw [if_pos hc2]
      exact hs
    · cases hs

/-- The signals raised for one chunk written to standard output. -/
theorem loopSignals_single (mode : ProcessChannelMode) (t : String) :
    loopSignals mode [(t, "")] = chunkSignals t "" := by
  cases mode <;> simp [loopSignals, visibleChunk]

theorem processChunks_append (cs1 cs2 : List (String × String)) :
    ∀ m : SSHMounter, SSHMounter.processChunks (cs1 ++ cs2) m =
      (SSHMounter.processChunks cs1 m).bind (SSHMounter.processChunks cs2) := by
  induction cs1 with
  | nil => intro m; rfl
  | cons c cs ih =>
    intro m
    simp only [List.cons_append, SSHMounter.processChunks, bind, Except.bind]
    cases deliver c.1 c.2 m with
    | error e => rfl
    | ok m1 =>
      dsimp only
      cases SSHMounter.onProcessOutput m1 with
      | error e => rfl
      | ok m2 => exact ih m2

/-- C21: the output of the helper is classified chunk by chunk.  Serving a list of chunks
is serving its parts one after the other, and the signals raised are those of the single
chunks, in order.  A signal raised by `onProcessOutput` for unread texts is also raised for
texts that contain them, and a signal raised for a chunk is also raised for every chunk
that contains it.  But the banner and the prompt `Password:` can each be split into two
texts `a`, `b` such that the chunk `a ++ b` raises the signal while `a` and `b`, served as
two chunks, raise nothing. -/
theorem classification_per_chunk (m : SSHMounter) (p : QProcess) (hp : m.process_ = some p)
    (hd : p.deleted = false) :
    (∀ (cs1 cs2 : List (String × String)) (m0 : SSHMounter),
      SSHMounter.processChunks (cs1 ++ cs2) m0 =
        (SSHMounter.processChunks cs1 m0).bind (SSHMounter.processChunks cs2)) ∧
    (∀ (m2 : SSHMounter) (p2 : QProcess), m2.process_ = some p2 → p2.deleted = false →
      p.stdoutBuf.data <:+: p2.stdoutBuf.data → p.stderrBuf.data <:+: p2.stderrBuf.data →
      ∃ m' m2' new new2,
        SSHMounter.onProcessOutput m = .ok m' ∧ m'.trace = m.trace ++ new ∧
        SSHMounter.onProcessOutput m2 = .ok m2' ∧ m2'.trace = m2.trace ++ new2 ∧
        ∀ s, s ∈ signalsOf new → s ∈ signalsOf new2) ∧
    (p.stdoutBuf = "" → p.stderrBuf = "" →
      (∀ chunks : List (String × String),
        ∃ m' new, SSHMounter.processChunks chunks m = .ok m' ∧ m'.trace = m.trace ++ new ∧
          signalsOf new = chunks.flatMap fun c =>
            chunkSignals (visibleChunk p.channelMode c).1 (visibleChunk p.channelMode c).2) ∧
      (∀ t t2 : String, t.data <:+: t2.data →
        ∃ m' m2' new new2,
          SSHMounter.processChunks [(t, "")] m = .ok m' ∧ m'.trace = m.trace ++ new ∧
          SSHMounter.processChunks [(t2, "")] m = .ok m2' ∧ m2'.trace = m.trace ++ new2 ∧
          ∀ s, s ∈ signalsOf new → s ∈ signalsOf new2) ∧
      (∃ a b m1 m2, a ++ b = SSHMounter.hostKeyBanner ∧
        SSHMounter.processChunks [(a ++ b, "")] m = .ok m1 ∧
        m1.trace = m.trace ++ [Effect.emit .hostKeyMismatch] ∧
        SSHMounter.processChunks [(a, ""), (b, "")] m = .ok m2 ∧ m2.trace = m.trace) ∧
      (∃ a b m1 m2, a ++ b = "Password:" ∧
        SSHMounter.processChunks [(a ++ b, "")] m = .ok m1 ∧
        m1.trace = m.trace ++ [Effect.emit .passwordRequired] ∧
        SSHMounter.processChunks [(a, ""), (b, "")] m = .ok m2 ∧ m2.trace = m.trace)) := by
  refine ⟨processChunks_append, ?_, ?_⟩
  · intro m2 p2 hp2 hd2 ho he
    refine ⟨_, _, _, _, onProcessOutput_live hp hd, rfl, onProcessOutput_live hp2 hd2, rfl, ?_⟩
    intro s hs
    rw [signalsOf_map_emit] at hs ⊢
    exact chunkSignals_mono _ _ _ _ ho he s hs
  · intro ho he
    refine ⟨?_, ?_, ?_, ?_⟩
    · intro chunks
      exact ⟨_, _, processChunks_live chunks m p hp hd ho he, rfl, by
        rw [signalsOf_map_emit]; rfl⟩
    · intro t t2 ht
      refine ⟨_, _, _, _, processChunks_live [(t, "")] m p hp hd ho he, rfl,
        processChunks_live [(t2, "")] m p hp hd ho he, rfl, ?_⟩
      intro s hs
      rw [signalsOf_map_emit, loopSignals_single] at hs ⊢
      exact chunkSignals_mono _ _ _ _ ht (List.infix_refl _) s hs
    · refine ⟨"WARNING: REMOTE HOST IDENTIFICATION", " HAS CHANGED!", _, _, by decide,
        processChunks_live _ m p hp hd ho he, ?_,
        processChunks_live _ m p hp hd ho he, ?_⟩
      · have e : loopSignals p.channelMode
            [("WARNING: REMOTE HOST IDENTIFICATION" ++ " HAS CHANGED!", "")] =
            [Signal.hostKeyMismatch] := by
          rw [loopSignals_single]; decide
        simp only [e, List.map_cons, List.map_nil]
      · have e : loopSignals p.channelMode
            [("WARNING: REMOTE HOST IDENTIFICATION", ""), (" HAS CHANGED!", "")] = [] := by
          cases p.channelMode <;> decide
        simp only [e, List.map_nil, List.append_nil]
    · refine ⟨"Pass", "word:", _, _, by decide,
        processChunks_live _ m p hp hd ho he, ?_,
        processChunks_live _ m p hp hd ho he, ?_⟩
      · have e : loopSignals p.channelMode [("Pass" ++ "word:", "")] =
            [Signal.passwordRequired] := by
          rw [loopSignals_single]; decide
        simp only [e, List.map_cons, List.map_nil]
      · have e : loopSignals p.channelMode [("Pass", ""), ("word:", "")] = [] := by
          cases p.channelMode <;> decide
        simp only [e, List.map_nil, List.append_nil]

/-- Worked instance of C21: during a mount the banner arrives in one chunk and is detected;
it arrives in two chunks and is not. -/
theorem classification_per_chunk_witness :
    Example.mounting.process_ = some Example.mountingProcess ∧
    Example.mountingProcess.deleted = false ∧
    (SSHMounter.processChunks
        [("WARNING: REMOTE HOST IDENTIFICATION HAS CHANGED!", "")] Example.mounting).map
        (fun r => r.trace) = .ok [Effect.emit .hostKeyMismatch] ∧
    (SSHMounter.processChunks
        [("WARNING: REMOTE HOST IDENTIFICATION", ""), (" HAS CHANGED!", "")]
        Example.mounting).map (fun r => r.trace) = .ok [] ∧
    (SSHMounter.processChunks [("Password:", "")] Example.mounting).map
        (fun r => r.trace) = .ok [Effect.emit .passwordRequired] ∧
    (SSHMounter.processChunks [("Pass", ""), ("word:", "")] Example.mounting).map
        (fun r => r.trace) = .ok [] ∧
    ∃ a b m1 m2, a ++ b = SSHMounter.hostKeyBanner ∧
      SSHMounter.processChunks [(a ++ b, "")] Example.mounting = .ok m1 ∧
      m1.trace = Example.mounting.trace ++ [Effect.emit .hostKeyMismatch] ∧
      SSHMounter.processChunks [(a, ""), (b, "")] Example.mounting = .ok m2 ∧
      m2.trace = Example.mounting.trace :=
  ⟨rfl, rfl, by rfl, by rfl, by rfl, by rfl,
    ((classification_per_chunk Example.mounting Example.mountingProcess rfl rfl).2.2
      rfl rfl).2.2.1⟩

end SSHMounterModel
